import Mathlib

/-!
Verification of the ankh deployment-orchestration CLI (Python 2 sources in
`src/ankh/`).  The Python functions are shallowly embedded: YAML data becomes
the inductive `Yaml`; Python control effects (normal return, `sys.exit`, an
uncaught exception) become the `PyM` monad; the process environment
(filesystem reads, temp-file name generation, tar archives, child-process
outcomes, the confirmation prompt) becomes the explicit `Env` record.
Logging and printed output relevant to the claims is tracked as `Event`
lists.
-/

set_option maxHeartbeats 1000000
set_option linter.unusedVariables false

/-- A YAML value as produced by `yaml.safe_load`: mappings have string keys. -/
inductive Yaml where
  | null : Yaml
  | bool (b : Bool) : Yaml
  | int (n : Int) : Yaml
  | str (s : String) : Yaml
  | list (xs : List Yaml) : Yaml
  | map (kvs : List (String × Yaml)) : Yaml

mutual
def Yaml.beq : Yaml → Yaml → Bool
  | .null, .null => true
  | .bool a, .bool b => a == b
  | .int a, .int b => a == b
  | .str a, .str b => a == b
  | .list xs, .list ys => Yaml.beqList xs ys
  | .map xs, .map ys => Yaml.beqDict xs ys
  | _, _ => false

def Yaml.beqList : List Yaml → List Yaml → Bool
  | [], [] => true
  | x :: xs, y :: ys => Yaml.beq x y && Yaml.beqList xs ys
  | _, _ => false

def Yaml.beqDict : List (String × Yaml) → List (String × Yaml) → Bool
  | [], [] => true
  | (k, v) :: xs, (k2, v2) :: ys => k == k2 && Yaml.beq v v2 && Yaml.beqDict xs ys
  | _, _ => false
end

instance : BEq Yaml := ⟨Yaml.beq⟩

/-- Result of running a piece of the Python program: a normal return,
`sys.exit(code)`, or an uncaught exception. `exit` and `exn` propagate
through sequencing exactly as in Python. -/
inductive PyM (α : Type) where
  | ok (a : α) : PyM α
  | exit (code : Int) : PyM α
  | exn (msg : String) : PyM α
deriving DecidableEq

def PyM.bind {α β : Type} : PyM α → (α → PyM β) → PyM β
  | .ok a, f => f a
  | .exit c, _ => .exit c
  | .exn m, _ => .exn m

instance : Monad PyM where
  pure := PyM.ok
  bind := PyM.bind

/-- First-match association-list lookup (Python dict lookup; parsed YAML
mappings have unique keys). -/
def dictGet (kvs : List (String × Yaml)) (k : String) : Option Yaml :=
  match kvs with
  | [] => none
  | (k2, v) :: rest => if k2 = k then some v else dictGet rest k

/-- Python `d[k] = v`: update in place, or append a new entry. -/
def dictSet (kvs : List (String × Yaml)) (k : String) (v : Yaml) : List (String × Yaml) :=
  match kvs with
  | [] => [(k, v)]
  | (k2, v2) :: rest => if k2 = k then (k2, v) :: rest else (k2, v2) :: dictSet rest k v

/-- Python truthiness (`not x` / `if x:`). -/
def pyFalsy : Yaml → Bool
  | .null => true
  | .bool b => !b
  | .int n => n == 0
  | .str s => s.isEmpty
  | .list xs => xs.isEmpty
  | .map kvs => kvs.isEmpty

def pyTruthy (y : Yaml) : Bool := !pyFalsy y

mutual
/-- Python `repr` (only as far as the sources can observe it). -/
def pyRepr : Yaml → String
  | .null => "None"
  | .bool b => if b then "True" else "False"
  | .int n => toString n
  | .str s => "\x27" ++ s ++ "\x27"
  | .list xs => "[" ++ String.intercalate ", " (pyReprList xs) ++ "]"
  | .map kvs => "\x7b" ++ String.intercalate ", " (pyReprMap kvs) ++ "\x7d"

def pyReprList : List Yaml → List String
  | [] => []
  | x :: xs => pyRepr x :: pyReprList xs

def pyReprMap : List (String × Yaml) → List String
  | [] => []
  | (k, v) :: kvs => ("\x27" ++ k ++ "\x27: " ++ pyRepr v) :: pyReprMap kvs
end

/-- Python `str`: identical to `repr` except on strings themselves. -/
def pyStr : Yaml → String
  | .str s => s
  | y => pyRepr y

-- Character-list string operations (kernel-reducible stand-ins for
-- `String.endsWith`, the substring test, and `str.replace`).

def strEndsWith (s t : String) : Bool := t.data.isSuffixOf s.data

def charsContain : List Char → List Char → Bool
  | [], pat => pat.isEmpty
  | c :: rest, pat => pat.isPrefixOf (c :: rest) || charsContain rest pat

def strContains (s pat : String) : Bool := charsContain s.data pat.data

-- Replace every non-overlapping occurrence of `pat`, left to right; `fuel`
-- bounds the recursion (one character is consumed per step, so the string
-- length suffices).  An empty `pat` leaves the string unchanged (the sources
-- only replace non-empty patterns).
def charsReplaceFuel : Nat → List Char → List Char → List Char → List Char
  | 0, l, _, _ => l
  | fuel + 1, l, pat, rep =>
    match l with
    | [] => []
    | c :: rest =>
      if pat.isPrefixOf (c :: rest) ∧ pat ≠ [] then
        rep ++ charsReplaceFuel fuel (List.drop pat.length (c :: rest)) pat rep
      else c :: charsReplaceFuel fuel rest pat rep

def strReplace (s pat rep : String) : String :=
  ⟨charsReplaceFuel s.data.length s.data pat.data rep.data⟩

/-- Python `x in y`: key membership for dicts (keys are strings), element
membership for lists, substring test for strings, `TypeError` otherwise. -/
def pyIn (x : Yaml) (y : Yaml) : PyM Bool :=
  match y with
  | .map kvs =>
    match x with
    | .str k => .ok (dictGet kvs k).isSome
    | _ => .ok false
  | .list xs => .ok (xs.contains x)
  | .str s =>
    match x with
    | .str k => .ok (charsContain s.data k.data)
    | _ => .exn "TypeError: in <string> requires string as left operand"
  | _ => .exn "TypeError: argument is not iterable"

/-- Python `y[x]` for a string-keyed container subscript. -/
def yIndexY (y : Yaml) (x : Yaml) : PyM Yaml :=
  match y with
  | .map kvs =>
    match x with
    | .str k =>
      match dictGet kvs k with
      | some v => .ok v
      | none => .exn ("KeyError: " ++ k)
    | _ => .exn "KeyError"
  | .list _ => .exn "TypeError: list indices must be integers"
  | _ => .exn "TypeError: object is not subscriptable"

def yIndex (y : Yaml) (k : String) : PyM Yaml := yIndexY y (.str k)

/-- Python `y.get(k, d)`: requires a dict receiver. -/
def yGetD (y : Yaml) (k : String) (d : Yaml) : PyM Yaml :=
  match y with
  | .map kvs => .ok ((dictGet kvs k).getD d)
  | _ => .exn "AttributeError: get"

/-- Python `len(y.items())`: requires a dict receiver. -/
def yItemsLen (y : Yaml) : PyM Nat :=
  match y with
  | .map kvs => .ok kvs.length
  | _ => .exn "AttributeError: items"

/-- Python `y[k] = v` on a dict, producing the updated value. -/
def ySet (y : Yaml) (k : String) (v : Yaml) : PyM Yaml :=
  match y with
  | .map kvs => .ok (.map (dictSet kvs k v))
  | _ => .exn "TypeError: object does not support item assignment"

-- `cli.merge_config`: deep merge, source wins; dict-valued source entries
-- recurse (seeding an empty dict when the target entry is absent), list-valued
-- source entries concatenate onto the target entry (seeding an empty list), any
-- other source entry overwrites.  A falsy source is returned unmerged.  Python
-- type errors (recursing into or assigning onto a non-dict target, or
-- concatenating onto a non-list) surface as `PyM.exn`.
mutual
def merge_config (target source : Yaml) : PyM Yaml :=
  if pyFalsy source then .ok target
  else
    match source with
    | .map kvs => merge_config_items target kvs
    | _ => .exn "AttributeError: iteritems"

def merge_config_items (target : Yaml) : List (String × Yaml) → PyM Yaml
  | [] => .ok target
  | (k, v) :: rest =>
    match v with
    | .map _ =>
      match target with
      | .map tkvs =>
        (merge_config ((dictGet tkvs k).getD (.map [])) v).bind fun merged =>
          merge_config_items (.map (dictSet tkvs k merged)) rest
      | _ => .exn "AttributeError: get"
    | .list l =>
      match target with
      | .map tkvs =>
        match (dictGet tkvs k).getD (.list []) with
        | .list tl => merge_config_items (.map (dictSet tkvs k (.list (tl ++ l)))) rest
        | _ => .exn "TypeError: can only concatenate list"
      | _ => .exn "AttributeError: get"
    | _ =>
      match target with
      | .map tkvs => merge_config_items (.map (dictSet tkvs k v)) rest
      | _ => .exn "TypeError: object does not support item assignment"
end

-- `utils.collapse`: flatten a dict into dotted `key=value` strings; booleans
-- are lower-cased, hyphens in keys become underscores.  The `acc` parameter of
-- the source is always `[]` at every call site and is dropped here.
mutual
def collapse : Yaml → List String → List String
  | .map kvs, path => collapseDict kvs path
  | .bool b, path => [String.intercalate "." path ++ "=" ++ (if b then "true" else "false")]
  | x, path => [String.intercalate "." path ++ "=" ++ pyStr x]

def collapseDict : List (String × Yaml) → List String → List String
  | [], _ => []
  | (k, v) :: rest, path => collapse v (path ++ [strReplace k "-" "_"]) ++ collapseDict rest path
end

/-- Command-line arguments after `argparse` (cli.main). -/
structure Args where
  yes : Bool := false
  verbose : Bool := false
  dry_run : Bool := false
  explain : Bool := false
  chart : Option String := none
  release : Option String := none
  kubeconfig : Option String := none
  helm_registry_url : Option String := none
  config_files : List String := ["ankh.yaml"]
  ankhconfig : String := "/root/.ankh/config"
  command : List String := ["template"]

/-- Exit codes and captured streams of one spawned two-stage pipeline
(helm stdout piped into kubectl stdin). -/
structure ExecOutcome where
  kout : String := ""
  kerr : String := ""
  herr : String := ""
  krc : Int := 0
  hrc : Int := 0
deriving DecidableEq

/-- The ambient process environment: filesystem, temp-file name supply, tar
archives, the confirmation prompt reply, child-process results. `tmpName`
yields the successive names produced by `tempfile` (`NamedTemporaryFile` and
`mkdtemp` draw from the same supply). `tarMembers` gives, for a `.tgz`
chartref, its extracted member files (relative path to parsed YAML content),
or `none` when opening the archive fails. -/
structure Env where
  hostname : String
  userInput : String
  pathExists : String → Bool
  isfile : String → Bool
  isdir : String → Bool
  readYaml : String → Yaml
  tmpName : Nat → String
  tarMembers : String → Option (List (String × Yaml))
  inspect : String → Option Yaml
  exec : List String → List String → ExecOutcome
  fetchOK : String → String → Bool

/-- `helm.get_ingress_host_by_chart_name`: look `name` up under
`global_config.global.ingress`; a plain string entry is the host itself,
anything else is subscripted with `host`. -/
def get_ingress_host_by_chart_name (gc : Yaml) (name : String) : PyM (Option Yaml) := do
  let hasGlobal ← pyIn (.str "global") gc
  if hasGlobal then do
    let g ← yIndex gc "global"
    let hasIng ← pyIn (.str "ingress") g
    if hasIng then do
      let ingresses ← yIndex g "ingress"
      let mem ← pyIn (.str name) ingresses
      if mem then do
        let o ← yIndex ingresses name
        match o with
        | .str s => pure (some (.str s))
        | _ => do
          let h ← yIndex o "host"
          pure (some h)
      else pure none
    else pure none
  else pure none

/-- `helm.fetch_chart`: curl `<registry>/<name>-<version>.tgz` into
`charts/`; `none` on a non-zero curl exit. -/
def fetch_chart (env : Env) (gc : Yaml) (name version : String) : PyM (Option String) := do
  let path := name ++ "-" ++ version ++ ".tgz"
  let fullpath := "charts/" ++ path
  let reg ← yIndex gc "helm_registry_url"
  if env.fetchOK (pyStr reg) path then pure (some fullpath) else pure none

/-- `helm.inspect_chart`: run `helm inspect chart <chartref>`; on success copy
the reported `name` and `version` into the chart, on a non-zero exit leave the
chart untouched (the source returns `None`). -/
def inspect_chart (env : Env) (chart : Yaml) : PyM Yaml := do
  let cref ← yIndex chart "chartref"
  match env.inspect (pyStr cref) with
  | none => pure chart
  | some result => do
    let n ← yIndex result "name"
    let v ← yIndex result "version"
    let chart ← ySet chart "name" n
    ySet chart "version" v

-- `helm.helm_append_kv` (the source's unused `prefix` parameter is dropped).
def helm_append_kv (helm : List String) (kv : Yaml) : List String :=
  helm ++ (collapse kv []).flatMap (fun item => ["--set", item])

/-- `helm.helm_append_ingress`: add `--set <ingress_variable>=<host>` when an
ingress host is registered (and truthy) for this chart name. -/
def helm_append_ingress (helm : List String) (chart gc : Yaml) : PyM (List String) := do
  let nameY ← yIndex chart "name"
  let ingress_host ← get_ingress_host_by_chart_name gc (pyStr nameY)
  match ingress_host with
  | some h =>
    if pyTruthy h then do
      let ingress_variable ← yGetD chart "ingress_variable" (.str "ingress.host")
      pure (helm ++ ["--set", pyStr ingress_variable ++ "=" ++ pyStr h])
    else pure helm
  | none => pure helm

/-- `helm.helm_append_base`: `--kube-context`, then `--namespace` when
configured. -/
def helm_append_base (helm : List String) (gc : Yaml) : PyM (List String) := do
  let kc ← yIndex gc "kube_context"
  let helm := helm ++ ["--kube-context", pyStr kc]
  let hasNs ← pyIn (.str "namespace") gc
  if hasNs then do
    let ns ← yIndex gc "namespace"
    pure (helm ++ ["--namespace", pyStr ns])
  else pure helm

/-- The second half of `helm.helm_append_values` (from `chartref =
chart['chartref']` on): for a `.tgz` chartref, extract the archive (the
`mkdtemp` draws one temp name) and, when it embeds an `ankh-values.yaml`
containing the environment key, append a temp `-f` file. -/
def helm_append_values_tar (env : Env) (helm : List String) (chart gc : Yaml) (ctr : Nat) :
    PyM (List String × Nat) := do
  let crefY ← yIndex chart "chartref"
  match crefY with
  | .str cref =>
    if !strEndsWith cref ".tgz" then pure (helm, ctr)
    else
      match env.tarMembers cref with
      | none => PyM.exn "ReadError: not a gzip file"
      | some members => do
        let ctr := ctr + 1
        let nameY ← yIndex chart "name"
        match dictGet members (pyStr nameY ++ "/ankh-values.yaml") with
        | some tarValues => do
          let e ← yIndex gc "environment"
          let mem ← pyIn e tarValues
          if mem then pure (helm ++ ["-f", env.tmpName ctr], ctr + 1)
          else pure (helm, ctr)
        | none => pure (helm, ctr)
  | _ => PyM.exn "AttributeError: endswith"

/-- `helm.helm_append_values`: `--set` pairs for `default_values`; a temp
`-f` file for `values[environment]` when present; then the chartref-archive
half (`helm_append_values_tar`). -/
def helm_append_values (env : Env) (helm : List String) (chart gc : Yaml) (ctr : Nat) :
    PyM (List String × Nat) := do
  let default_values ← yGetD chart "default_values" (.map [])
  let ndv ← yItemsLen default_values
  let helm := if ndv > 0 then helm_append_kv helm default_values else helm
  let values ← yGetD chart "values" (.map [])
  let nv ← yItemsLen values
  let (helm, ctr) ←
    if nv > 0 then do
      let e ← yIndex gc "environment"
      let mem ← pyIn e values
      if mem then
        pure (helm ++ ["-f", env.tmpName ctr], ctr + 1)
      else pure (helm, ctr)
    else pure (helm, ctr)
  helm_append_values_tar env helm chart gc ctr

/-- `helm.helm_append_secrets`: `--set` pairs for `secrets[environment]` when
present; never a file source. -/
def helm_append_secrets (helm : List String) (chart gc : Yaml) : PyM (List String) := do
  let secrets ← yGetD chart "secrets" (.map [])
  let n ← yItemsLen secrets
  if n > 0 then do
    let e ← yIndex gc "environment"
    let mem ← pyIn e secrets
    if mem then do
      let sub ← yIndexY secrets e
      pure (helm_append_kv helm sub)
    else pure helm
  else pure helm

/-- The second half of `helm.helm_append_profile` (from `chartref =
chart['chartref']` on): for a `.tgz` chartref, extract the archive and, when
it embeds an `ankh-resource-profiles.yaml` containing the profile key,
append a temp `-f` file. -/
def helm_append_profile_tar (env : Env) (helm : List String) (chart gc : Yaml) (ctr : Nat) :
    PyM (List String × Nat) := do
  let crefY ← yIndex chart "chartref"
  match crefY with
  | .str cref =>
    if !strEndsWith cref ".tgz" then pure (helm, ctr)
    else
      match env.tarMembers cref with
      | none => PyM.exn "ReadError: not a gzip file"
      | some members => do
        let ctr := ctr + 1
        let nameY ← yIndex chart "name"
        match dictGet members (pyStr nameY ++ "/ankh-resource-profiles.yaml") with
        | some tarProfiles => do
          let p ← yIndex gc "profile"
          let mem ← pyIn p tarProfiles
          if mem then pure (helm ++ ["-f", env.tmpName ctr], ctr + 1)
          else pure (helm, ctr)
        | none => pure (helm, ctr)
  | _ => PyM.exn "AttributeError: endswith"

/-- `helm.helm_append_profile`: a temp `-f` file for
`resource_profiles[profile]` when present; then the chartref-archive half
(`helm_append_profile_tar`). -/
def helm_append_profile (env : Env) (helm : List String) (chart gc : Yaml) (ctr : Nat) :
    PyM (List String × Nat) := do
  let resource_profiles ← yGetD chart "resource_profiles" (.map [])
  let n ← yItemsLen resource_profiles
  let (helm, ctr) ←
    if n > 0 then do
      let p ← yIndex gc "profile"
      let mem ← pyIn p resource_profiles
      if mem then
        pure (helm ++ ["-f", env.tmpName ctr], ctr + 1)
      else pure (helm, ctr)
    else pure (helm, ctr)
  helm_append_profile_tar env helm chart gc ctr

/-- `helm.helm_append_context`: flatten `{global: global_config.global}` into
`--set` pairs when the key is present. -/
def helm_append_context (helm : List String) (chart gc : Yaml) : PyM (List String) := do
  let hasG ← pyIn (.str "global") gc
  if hasG then do
    let g ← yIndex gc "global"
    pure (helm ++ (collapse (.map [("global", g)]) []).flatMap (fun item => ["--set", item]))
  else pure helm

-- `helm.helm_append_chartref`: the chart reference as a positional argument.
def helm_append_chartref (helm : List String) (chart : Yaml) : PyM (List String) := do
  let cref ← yIndex chart "chartref"
  pure (helm ++ [pyStr cref])

/-- `helm.helm_append_release`: `--name <release>` when a truthy release is
configured. -/
def helm_append_release (helm : List String) (chart gc : Yaml) : PyM (List String) := do
  let hasRel ← pyIn (.str "release") gc
  if hasRel then do
    let rel ← yIndex gc "release"
    if pyTruthy rel then pure (helm ++ ["--name", pyStr rel]) else pure helm
  else pure helm

/-- `helm.helm_template_command`: the template-stage argument vector, built in
the source's fixed order. -/
def helm_template_command (env : Env) (chart gc : Yaml) (ctr : Nat) :
    PyM (List String × Nat) := do
  let helm := ["helm", "template"]
  let helm ← helm_append_base helm gc
  let helm ← helm_append_context helm chart gc
  let helm ← helm_append_ingress helm chart gc
  let helm ← helm_append_secrets helm chart gc
  let (helm, ctr) ← helm_append_values env helm chart gc ctr
  let (helm, ctr) ← helm_append_profile env helm chart gc ctr
  let helm ← helm_append_release helm chart gc
  let helm ← helm_append_chartref helm chart
  pure (helm, ctr)

/-- Observable actions of a run that the claims talk about: the confirmation
prompt, aborting on a declined confirmation, spawning a two-stage pipeline,
explain-mode printing, per-pipeline reports, rendered template output, and
logged errors. -/
inductive Event where
  | confirmPrompt (action : String) (names : List String) : Event
  | abortDeclined : Event
  | spawned (name : String) (helm kubectl : List String) : Event
  | explainPrint (line : String) : Event
  | kubectlOK (path : String) : Event
  | templateOut (s : String) : Event
  | kubectlFailed (path err : String) : Event
  | helmOK (path : String) : Event
  | helmFailed (path err : String) : Event
  | logError (msg : String) : Event
deriving DecidableEq

/-- `kubectl.kubectl_append_base`: `--context`, optional `--namespace`,
optional `--dry-run`. -/
def kubectl_append_base (kubectl : List String) (gc : Yaml) (args : Args) :
    PyM (List String) := do
  let kc ← yIndex gc "kube_context"
  let kubectl := kubectl ++ ["--context", pyStr kc]
  let hasNs ← pyIn (.str "namespace") gc
  let kubectl ←
    if hasNs then do
      let ns ← yIndex gc "namespace"
      pure (kubectl ++ ["--namespace", pyStr ns])
    else pure kubectl
  pure (if args.dry_run then kubectl ++ ["--dry-run"] else kubectl)

-- `kubectl.kubectl_append_extra_args`.
def kubectl_append_extra_args (kubectl : List String) (extra : Option (List String)) :
    List String :=
  match extra with
  | some e => kubectl ++ e
  | none => kubectl

-- `kubectl.kubectl_append_path`: read manifests from stdin.
def kubectl_append_path (kubectl : List String) : List String :=
  kubectl ++ ["-f", "-"]

-- `kubectl.kubectl_append_kubeconfig` (`args.kubeconfig` truthiness check).
def kubectl_append_kubeconfig (kubectl : List String) (args : Args) : List String :=
  if args.kubeconfig.getD "" ≠ "" then kubectl ++ ["--kubeconfig", args.kubeconfig.getD ""]
  else kubectl

/-- `kubectl.kubectl_action_command`: the action-stage argument vector, in the
source's order: tool, action, kubeconfig, base, extra args, `-f -`. -/
def kubectl_action_command (action : String) (gc : Yaml) (args : Args)
    (extra : Option (List String)) : PyM (List String) := do
  let kubectl := ["kubectl", action]
  let kubectl := kubectl_append_kubeconfig kubectl args
  let kubectl ← kubectl_append_base kubectl gc args
  let kubectl := kubectl_append_extra_args kubectl extra
  pure (kubectl_append_path kubectl)

/-- `kubectl.kubectl_chart_action_commands`: build the two stage commands for
one chart; for the `template` action stage 2 is `cat`. Returns
`(chartref, helm argv, kubectl argv)`. -/
def kubectl_chart_action_commands (env : Env) (action : String) (chart : Yaml) (args : Args)
    (extra : Option (List String)) (gc : Yaml) (ctr : Nat) :
    PyM ((String × List String × List String) × Nat) := do
  let (helm, ctr) ← helm_template_command env chart gc ctr
  let kubectl ←
    if action = "template" then pure ["cat"]
    else kubectl_action_command action gc args extra
  let cref ← yIndex chart "chartref"
  pure ((pyStr cref, helm, kubectl), ctr)

-- `map(lambda x: x['name'], targets)` in the confirmation prompt.
def confirm_names : List Yaml → PyM (List String)
  | [] => .ok []
  | t :: rest =>
    (yIndex t "name").bind fun n =>
      (confirm_names rest).bind fun ns => .ok (pyStr n :: ns)

/-- The spawn loop of `kubectl.kubectl_action_targets`: per chart, build the
two commands; in explain mode print `stage1 | stage2` and spawn nothing,
otherwise spawn the pipeline and record it for the reporting loop. -/
def spawn_pipelines (env : Env) (action : String) (args : Args) (extra : Option (List String))
    (gc : Yaml) : List Yaml → Nat → List Event × PyM (List (String × List String × List String))
  | [], _ => ([], .ok [])
  | chart :: rest, ctr =>
    match kubectl_chart_action_commands env action chart args extra gc ctr with
    | .ok (t, ctr2) =>
      if args.explain then
        let (evs, r) := spawn_pipelines env action args extra gc rest ctr2
        (.explainPrint (String.intercalate " " t.2.1 ++ " | " ++ String.intercalate " " t.2.2)
          :: evs, r)
      else
        let (evs, r) := spawn_pipelines env action args extra gc rest ctr2
        (.spawned t.1 t.2.1 t.2.2 :: evs, r.bind fun ts => .ok (t :: ts))
    | .exit c => ([], .exit c)
    | .exn m => ([], .exn m)

/-- The reporting loop of `kubectl.kubectl_action_targets`: in spawn order,
wait on kubectl (stage 2) first — a non-zero exit reports failure and exits 1
immediately — then wait on helm (stage 1), whose non-zero exit is also fatal.
For the `template` action a successful stage 2 prints the captured stdout. -/
def report_pipelines (env : Env) (action : String) :
    List (String × List String × List String) → List Event × PyM (Option Int)
  | [] => ([], .ok none)
  | (path, helm, kubectl) :: rest =>
    let o := env.exec helm kubectl
    if o.krc = 0 then
      let ev := if action = "template" then Event.templateOut o.kout else Event.kubectlOK path
      if o.hrc = 0 then
        let (evs, r) := report_pipelines env action rest
        (ev :: Event.helmOK path :: evs, r)
      else ([ev, Event.helmFailed path o.herr], .exit 1)
    else ([Event.kubectlFailed path o.kerr], .exit 1)

/-- `kubectl.kubectl_action_targets`: confirmation gate (unless `--yes`),
then spawn every pipeline, then the reporting loop. -/
def kubectl_action_targets (env : Env) (action : String) (targets : List Yaml) (args : Args)
    (extra : Option (List String)) (gc : Yaml) : List Event × PyM (Option Int) :=
  let go : List Event → List Event × PyM (Option Int) := fun evs0 =>
    match spawn_pipelines env action args extra gc targets 0 with
    | (evs, .ok procs) =>
      let (revs, r) := report_pipelines env action procs
      (evs0 ++ evs ++ revs, r)
    | (evs, .exit c) => (evs0 ++ evs, .exit c)
    | (evs, .exn m) => (evs0 ++ evs, .exn m)
  if !args.yes then
    match confirm_names targets with
    | .ok names =>
      if env.userInput ≠ "y" ∧ env.userInput ≠ "Y" then
        ([.confirmPrompt action names, .abortDeclined], .exit 1)
      else go [.confirmPrompt action names]
    | .exit c => ([], .exit c)
    | .exn m => ([], .exn m)
  else go []

/-- One step of the declared-chart loop in `kubectl.kubectl_action`: skip
nameless entries with a logged error, apply the `--chart` name filter, keep
entries that already carry a `chartref`, otherwise fetch by name and version —
a failed fetch makes the whole resolution return `-1` (`Sum.inl`). -/
def resolve_declared_charts (env : Env) (args : Args) (gc : Yaml) :
    List Yaml → List Event × PyM (Int ⊕ List Yaml)
  | [] => ([], .ok (.inr []))
  | chart :: rest =>
    match yGetD chart "name" .null with
    | .ok nameY =>
      match nameY with
      | .null =>
        let (evs, r) := resolve_declared_charts env args gc rest
        (.logError "Invalid chart: missing name" :: evs, r)
      | _ =>
        let c := args.chart.getD ""
        if c ≠ "" && (match nameY with | .str s => s ≠ c | _ => true) then
          resolve_declared_charts env args gc rest
        else
          match pyIn (.str "chartref") chart with
          | .ok hasRef =>
            if hasRef then
              let (evs, r) := resolve_declared_charts env args gc rest
              (evs, r.bind fun t =>
                .ok (match t with | .inl i => .inl i | .inr ts => .inr (chart :: ts)))
            else
              match (yIndex chart "version").bind fun v =>
                  (yIndex chart "name").bind fun n => .ok (v, n) with
              | .ok (v, n) =>
                match fetch_chart env gc (pyStr n) (pyStr v) with
                | .ok (some path) =>
                  match ySet chart "chartref" (.str path) with
                  | .ok chart2 =>
                    let (evs, r) := resolve_declared_charts env args gc rest
                    (evs, r.bind fun t =>
                      .ok (match t with | .inl i => .inl i | .inr ts => .inr (chart2 :: ts)))
                  | .exit c2 => ([], .exit c2)
                  | .exn m => ([], .exn m)
                | .ok none =>
                  ([.logError ("Failed to fetch chart " ++ pyStr n ++ " with version " ++ pyStr v)],
                    .ok (.inl (-1)))
                | .exit c2 => ([], .exit c2)
                | .exn m => ([], .exn m)
              | .exit c2 => ([], .exit c2)
              | .exn m => ([], .exn m)
          | .exit c2 => ([], .exit c2)
          | .exn m => ([], .exn m)
    | .exit c2 => ([], .exit c2)
    | .exn m => ([], .exn m)

-- Python iterates a dict by its keys and a string by its characters; model
-- `for chart in config['charts']` accordingly.
def pyIterate : Yaml → PyM (List Yaml)
  | .list xs => .ok xs
  | .map kvs => .ok (kvs.map (fun kv => .str kv.1))
  | .str s => .ok (s.toList.map (fun c => .str (String.mk [c])))
  | _ => .exn "TypeError: object is not iterable"

/-- `kubectl.kubectl_action`: either an ad-hoc single target from a local
`--chart` path (inspected for name and version), or the declared list from
`config['charts']` — note `config` is already the charts section handed over
by the caller.  A `--chart` filter matching nothing returns `-1`. -/
def kubectl_action (env : Env) (action : String) (config : Yaml) (args : Args)
    (extra : Option (List String)) (gc : Yaml) : List Event × PyM (Option Int) :=
  let c := args.chart.getD ""
  if c ≠ "" ∧ ((strEndsWith c ".tgz" ∧ env.isfile c) ∨ env.isdir c) then
    match inspect_chart env (.map [("chartref", .str c)]) with
    | .ok chart => kubectl_action_targets env action [chart] args extra gc
    | .exit n => ([], .exit n)
    | .exn m => ([], .exn m)
  else
    match (yIndex config "charts").bind pyIterate with
    | .ok charts =>
      match resolve_declared_charts env args gc charts with
      | (evs, .ok (.inl code)) => (evs, .ok (some code))
      | (evs, .ok (.inr targets)) =>
        if c ≠ "" ∧ targets.isEmpty then
          (evs ++ [.logError ("could not find any target for chart arg " ++ c)], .ok (some (-1)))
        else
          let (evs2, r2) := kubectl_action_targets env action targets args extra gc
          (evs ++ evs2, r2)
      | (evs, .exit n) => (evs, .exit n)
      | (evs, .exn m) => (evs, .exn m)
    | .exit n => ([], .exit n)
    | .exn m => ([], .exn m)

/-- `cli.ankh_config_read`: read the user-level ankh config; return the
current context name and its fragment when `current-context` points at a
declared context, `("", none)` otherwise (missing file, missing pointer, or
unknown pointer are soft warnings). -/
def ankh_config_read (env : Env) (args : Args) : PyM (String × Option Yaml) :=
  if env.pathExists args.ankhconfig then do
    let config := env.readYaml args.ankhconfig
    let hasCC ← pyIn (.str "current-context") config
    if hasCC then do
      let current_context ← yIndex config "current-context"
      let hasCtxs ← pyIn (.str "contexts") config
      if !hasCtxs then pure ("", none)
      else do
        let mem ← (yIndex config "contexts").bind (pyIn current_context)
        if !mem then pure ("", none)
        else do
          let contexts ← yIndex config "contexts"
          let subconfig ← yIndexY contexts current_context
          pure (pyStr current_context, some subconfig)
    else pure ("", none)
  else pure ("", none)

/-- The project-config-file loop of `cli.gather_config`: an existing file is
parsed and deep-merged; a missing file named something other than `ankh.yaml`
is skipped with a debug message; a missing `ankh.yaml` is
`logger.error` + `sys.exit(1)`. -/
def gather_config_files (env : Env) : List String → Yaml → List Event × PyM Yaml
  | [], gc => ([], .ok gc)
  | f :: rest, gc =>
    if env.pathExists f then
      match merge_config gc (env.readYaml f) with
      | .ok gc2 => gather_config_files env rest gc2
      | .exit c => ([], .exit c)
      | .exn m => ([], .exn m)
    else if f ≠ "ankh.yaml" then
      gather_config_files env rest gc
    else
      ([.logError ("Cannot find config file " ++ f)], .exit 1)

/-- `cli.gather_config`: start from the current ankh-config context fragment
(if any), then fold the project config files over it. -/
def gather_config (env : Env) (args : Args) : List Event × PyM Yaml :=
  match ankh_config_read env args with
  | .ok (_, subconfig) =>
    let start : PyM Yaml :=
      match subconfig with
      | some sub => merge_config (.map []) sub
      | none => .ok (.map [])
    match start with
    | .ok gc0 => gather_config_files env args.config_files gc0
    | .exit c => ([], .exit c)
    | .exn m => ([], .exn m)
  | .exit c => ([], .exit c)
  | .exn m => ([], .exn m)

-- The magic ingress-host placeholder (`${HOSTNAME}` in the source).
def hostnameToken : String := "$\x7bHOSTNAME\x7d"

/-- `cli.template_ingress_hosts`: substitute the placeholder with the real
hostname in every string-valued entry of `global_config['context']['ingress']`
— both lookups are unguarded, so a configuration without that submap raises. -/
def template_ingress_hosts (hostname : String) (gc : Yaml) : PyM Yaml := do
  let ctxY ← yIndex gc "context"
  let ingY ← yIndex ctxY "ingress"
  match ingY with
  | .map items =>
    let newItems := items.map (fun kv =>
      match kv.2 with
      | .str host =>
        if strContains host hostnameToken then
          (kv.1, Yaml.str (strReplace host hostnameToken hostname))
        else kv
      | _ => kv)
    let ctx2 ← ySet ctxY "ingress" (.map newItems)
    ySet gc "context" ctx2
  | _ => PyM.exn "AttributeError: items"

/-- `utils.command_header`: print the action banner.  The concatenations are
unguarded: `global_config['kube_context']` and `global_config['environment']`
raise a `KeyError` when absent (and a `TypeError` when not strings), before
anything downstream of the header runs.  Returns the built context line. -/
def command_header (action : String) (gc : Yaml) : PyM String := do
  let hasNs ← pyIn (.str "namespace") gc
  let namespace_context ←
    if hasNs then do
      let ns ← yIndex gc "namespace"
      match ns with
      | .str s => pure (" and namespace \x22" ++ s ++ "\x22")
      | _ => PyM.exn "TypeError: cannot concatenate str and non-str"
    else pure ""
  let kc ← yIndex gc "kube_context"
  let e ← yIndex gc "environment"
  match kc, e with
  | .str kcs, .str es =>
    pure ("context \x22" ++ kcs ++ "\x22 using environment \x22" ++ es ++ "\x22"
      ++ namespace_context)
  | _, _ => PyM.exn "TypeError: cannot concatenate str and non-str"

/-- `cli.apply_command`: when a bootstrap section is configured, print the
header and run the bootstrap scripts (the script runner only logs per-script
results and never changes the command's outcome, so it is modelled as the
dict access it performs); then, when a charts section is configured, print
the header and hand `global_config['charts']` to `kubectl_action` — whose
return value is discarded — and return 0. -/
def apply_command (env : Env) (gc : Yaml) (args : Args) : List Event × PyM Int :=
  match (pyIn (.str "bootstrap") gc).bind fun hasBoot =>
      if hasBoot then
        (command_header "Bootstrapping" gc).bind fun _ =>
          (yIndex gc "bootstrap").bind fun b => yGetD b "scripts" (.list [])
      else .ok (.list []) with
  | .ok _ =>
    match pyIn (.str "charts") gc with
    | .ok hasCharts =>
      if hasCharts then
        match (command_header "Deploying" gc).bind fun _ => yIndex gc "charts" with
        | .ok chartsSection =>
          let (evs, r) := kubectl_action env "apply" chartsSection args none gc
          (evs, r.bind fun _ => .ok 0)
        | .exit c => ([], .exit c)
        | .exn m => ([], .exn m)
      else ([.logError "charts section not found in config"], .ok 0)
    | .exit c => ([], .exit c)
    | .exn m => ([], .exn m)
  | .exit c => ([], .exit c)
  | .exn m => ([], .exn m)

/-- `cli.template_command`: when a charts section is configured, print the
header and hand `global_config['charts']` to `kubectl_action` — return value
discarded — and return 0. -/
def template_command (env : Env) (gc : Yaml) (args : Args) : List Event × PyM Int :=
  match pyIn (.str "charts") gc with
  | .ok hasCharts =>
    if hasCharts then
      match (command_header "Templating" gc).bind fun _ => yIndex gc "charts" with
      | .ok chartsSection =>
        let (evs, r) := kubectl_action env "template" chartsSection args none gc
        (evs, r.bind fun _ => .ok 0)
      | .exit c => ([], .exit c)
      | .exn m => ([], .exn m)
    else ([.logError "charts section not found in config"], .ok 0)
  | .exit c => ([], .exit c)
  | .exn m => ([], .exn m)

-- `'key' not in gc or not gc['key']` — the required-key validation of
-- `cli.run` (false means exit 1).
def required_key_ok (gc : Yaml) (key : String) : PyM Bool := do
  let has ← pyIn (.str key) gc
  if !has then pure false
  else do
    let v ← yIndex gc key
    pure (pyTruthy v)

/-- `cli.run`: gather configuration, reject recursive dependencies, check the
four required keys (kube_context, environment, profile — and, after the CLI
override, helm_registry_url), apply the release override, run the
unconditional ingress-host substitution, then dispatch on the command (an
unknown command logs a suggestion and returns 1). -/
def run (env : Env) (args : Args) : List Event × PyM Int :=
  match gather_config env args with
  | (evs0, .ok gc) =>
    match pyIn (.str "dependencies") gc with
    | .ok true => (evs0 ++ [.logError "recursive dependencies are not supported"], .ok 1)
    | .ok false =>
      let step : PyM Yaml := do
        let kcOK ← required_key_ok gc "kube_context"
        if !kcOK then PyM.exit 1
        else do
          let envOK ← required_key_ok gc "environment"
          if !envOK then PyM.exit 1
          else do
            let profOK ← required_key_ok gc "profile"
            if !profOK then PyM.exit 1
            else do
              let gc ← if args.release.getD "" ≠ "" then
                  ySet gc "release" (.str (args.release.getD ""))
                else pure gc
              let gc ← if args.helm_registry_url.getD "" ≠ "" then
                  ySet gc "helm_registry_url" (.str (args.helm_registry_url.getD ""))
                else pure gc
              let regOK ← required_key_ok gc "helm_registry_url"
              if !regOK then PyM.exit 1
              else template_ingress_hosts env.hostname gc
      match step with
      | .ok gc2 =>
        match args.command with
        | [] => (evs0, .exn "IndexError: list index out of range")
        | cmd :: _ =>
          if cmd = "apply" then
            let (evs, r) := apply_command env gc2 args
            (evs0 ++ evs, r)
          else if cmd = "template" then
            let (evs, r) := template_command env gc2 args
            (evs0 ++ evs, r)
          else (evs0 ++ [.logError ("Unknown command: " ++ cmd)], .ok 1)
      | .exit c => (evs0, .exit c)
      | .exn m => (evs0, .exn m)
    | .exit c => (evs0, .exit c)
    | .exn m => (evs0, .exn m)
  | (evs0, .exit c) => (evs0, .exit c)
  | (evs0, .exn m) => (evs0, .exn m)

/-- What `merge_config` does at one key of a mapping source (the amended
per-key contract): a mapping source value recurses into the target's existing
entry (empty-mapping seed when absent); a list source value concatenates onto
the target's existing list (empty seed when absent); any other source value
overwrites; keys absent from the source are untouched. -/
def MergeKeySpec (t s rm : List (String × Yaml)) (k : String) : Prop :=
  match dictGet s k with
  | none => dictGet rm k = dictGet t k
  | some (.map sv) =>
    ∃ merged, merge_config ((dictGet t k).getD (.map [])) (.map sv) = .ok merged
      ∧ dictGet rm k = some merged
  | some (.list l) =>
    ∃ tl, (dictGet t k).getD (.list []) = .list tl
      ∧ dictGet rm k = some (.list (tl ++ l))
  | some v => dictGet rm k = some v

/-- A neutral concrete environment for witnesses: nothing on the filesystem,
every pipeline exits 0, prompt reply `n`. -/
def envBase : Env where
  hostname := "host1"
  userInput := "n"
  pathExists := fun _ => false
  isfile := fun _ => false
  isdir := fun _ => false
  readYaml := fun _ => .null
  tmpName := fun n => "/tmp/t" ++ toString n
  tarMembers := fun _ => none
  inspect := fun _ => none
  exec := fun _ _ => {}
  fetchOK := fun _ _ => true

-- Concrete inputs used by witnesses and counterexamples.

def argsYes : Args := { yes := true }

-- Two declared charts with local (non-archive) chart references.
def chartA : Yaml := .map [("name", .str "a"), ("chartref", .str "dirA")]

def chartB : Yaml := .map [("name", .str "b"), ("chartref", .str "dirB")]

-- A minimal global config for command building.
def gcKC : Yaml := .map [("kube_context", .str "ctx")]

-- Pipelines whose template argv mentions `dirB` fail in stage 2.
def envC4 : Env :=
  { envBase with exec := fun h _ => if h.contains "dirB" then { kerr := "boom", krc := 1 } else {} }

def envFetchFail : Env := { envBase with fetchOK := fun _ _ => false }

-- A chart declared by name and version only (forces a fetch).
def chartNV : Yaml := .map [("name", .str "a"), ("version", .str "1")]

-- A global config whose charts section is nested one level deep, as the
-- double indexing of `kubectl_action` requires for the loop to run at all.
def gcC5 : Yaml := .map
  [("kube_context", .str "ctx"), ("environment", .str "e"), ("profile", .str "p"),
   ("helm_registry_url", .str "http://reg"),
   ("charts", .map [("charts", .list [chartNV])])]

-- A validated config (string kube_context and environment) whose charts
-- section is a list.
def gcListCharts : List (String × Yaml) :=
  [("charts", .list []), ("kube_context", .str "ctx"), ("environment", .str "prod")]

-- Pipelines whose template argv mentions `dirB` succeed in stage 2 but fail
-- in stage 1 (the template stage).
def envC4b : Env :=
  { envBase with exec := fun h _ => if h.contains "dirB" then { herr := "tfail", hrc := 1 } else {} }

-- A project config carrying the four required keys and nothing else.
def gcFourKeys : Yaml := .map
  [("kube_context", .str "ctx"), ("environment", .str "prod"), ("profile", .str "production"),
   ("helm_registry_url", .str "http://reg")]

-- `ankh.yaml` exists and parses to the four required keys; no user config.
def envC10 : Env :=
  { envBase with pathExists := fun p => p = "ankh.yaml", readYaml := fun _ => gcFourKeys }

-- A chart with no override fields, a config with environment `prod`, and a
-- filesystem on which `values/prod/X.yaml` exists.
def chartX : Yaml := .map [("name", .str "X"), ("chartref", .str "charts/X")]

def gcProd : Yaml := .map
  [("kube_context", .str "ctx"), ("environment", .str "prod"), ("profile", .str "production")]

def envC1 : Env := { envBase with pathExists := fun p => p = "values/prod/X.yaml" }

-- A chart carrying inline default_values and a per-environment values entry.
def chartV : Yaml := .map
  [("name", .str "X"), ("chartref", .str "charts/X"),
   ("default_values", .map [("a", .int 1)]),
   ("values", .map [("prod", .map [("b", .int 2)])])]

-- A chart and a global config with a registered ingress host for it.
def chartIng : Yaml := .map [("name", .str "web"), ("chartref", .str "charts/web")]

def gcGlobalIng : Yaml := .map
  [("kube_context", .str "ctx"), ("environment", .str "prod"),
   ("global", .map [("ingress", .map [("web", .str "web.example.com")])])]

-- An ingress submap with one placeholder-bearing string entry and one
-- non-string entry.
def ingressItems : List (String × Yaml) := [("app", .str "x$\x7bHOSTNAME\x7dy"), ("num", .int 3)]

def ctxIngress : List (String × Yaml) := [("ingress", .map ingressItems)]

def gcIngress : List (String × Yaml) := [("context", .map ctxIngress)]

-- ---------------------------------------------------------------------------
-- Helper lemmas
-- ---------------------------------------------------------------------------

theorem PyM.bind_ok {α β : Type} (a : α) (f : α → PyM β) : PyM.bind (.ok a) f = f a := rfl

theorem PyM.bind_exit {α β : Type} (c : Int) (f : α → PyM β) :
    PyM.bind (.exit c) f = .exit c := rfl

theorem PyM.bind_exn {α β : Type} (m : String) (f : α → PyM β) :
    PyM.bind (.exn m) f = .exn m := rfl

theorem PyM.bind_eq {α β : Type} (x : PyM α) (f : α → PyM β) : x >>= f = x.bind f := rfl

theorem PyM.pure_eq {α : Type} (a : α) : (pure a : PyM α) = .ok a := rfl

theorem PyM.bind_assoc {α β γ : Type} (x : PyM α) (f : α → PyM β) (g : β → PyM γ) :
    (x.bind f).bind g = x.bind (fun a => (f a).bind g) := by
  cases x <;> rfl

theorem dictGet_cons_self (k : String) (v : Yaml) (l : List (String × Yaml)) :
    dictGet ((k, v) :: l) k = some v := by
  simp [dictGet]

theorem dictGet_cons_ne {k0 k2 : String} (hne : ¬ (k0 = k2)) (v : Yaml)
    (l : List (String × Yaml)) : dictGet ((k0, v) :: l) k2 = dictGet l k2 := by
  simp [dictGet, hne]

theorem dictGet_eq_none_of_not_mem :
    ∀ {l : List (String × Yaml)} {k : String}, k ∉ l.map Prod.fst → dictGet l k = none
  | [], _, _ => rfl
  | (k0, v0) :: tl, k, h => by
    have h1 : ¬ (k0 = k) := fun he => h (by simp [he])
    have h2 : k ∉ tl.map Prod.fst := fun hm => h (by simp [hm])
    rw [dictGet_cons_ne h1]
    exact dictGet_eq_none_of_not_mem h2

theorem dictGet_dictSet_self : ∀ (t : List (String × Yaml)) (k : String) (v : Yaml),
    dictGet (dictSet t k v) k = some v
  | [], k, v => by simp [dictSet, dictGet]
  | (k0, v0) :: tl, k, v => by
    by_cases hk : k0 = k
    · simp only [dictSet, if_pos hk]
      subst hk
      exact dictGet_cons_self k0 v tl
    · simp only [dictSet, if_neg hk]
      rw [dictGet_cons_ne hk]
      exact dictGet_dictSet_self tl k v

theorem dictGet_dictSet_ne : ∀ (t : List (String × Yaml)) (k : String) (v : Yaml)
    (k2 : String), ¬ (k2 = k) → dictGet (dictSet t k v) k2 = dictGet t k2
  | [], k, v, k2, hne => by
    have h1 : ¬ (k = k2) := fun h => hne h.symm
    simp [dictSet, dictGet, h1]
  | (k0, v0) :: tl, k, v, k2, hne => by
    by_cases hk : k0 = k
    · have hnk2 : ¬ (k0 = k2) := fun h => hne (h.symm.trans hk)
      simp only [dictSet, if_pos hk]
      rw [dictGet_cons_ne hnk2, dictGet_cons_ne hnk2]
    · by_cases hk2 : k0 = k2
      · simp only [dictSet, if_neg hk]
        subst hk2
        rw [dictGet_cons_self, dictGet_cons_self]
      · simp only [dictSet, if_neg hk]
        rw [dictGet_cons_ne hk2, dictGet_cons_ne hk2]
        exact dictGet_dictSet_ne tl k v k2 hne

theorem merge_config_items_lookup :
    ∀ (s t : List (String × Yaml)) (r : Yaml), (s.map Prod.fst).Nodup →
      merge_config_items (.map t) s = .ok r →
      ∃ rm, r = .map rm ∧ ∀ k, MergeKeySpec t s rm k := by
  intro s
  induction s with
  | nil =>
    intro t r _ h
    refine ⟨t, ?_, ?_⟩
    · cases h; rfl
    · intro k
      unfold MergeKeySpec
      rw [show dictGet [] k = none from rfl]
  | cons hd rest ih =>
    intro t r hnd h
    obtain ⟨k0, v0⟩ := hd
    simp only [List.map_cons, List.nodup_cons] at hnd
    have hk0 : dictGet rest k0 = none := dictGet_eq_none_of_not_mem hnd.1
    -- the tail step, shared by the three source-value shapes
    have step :
        ∀ (t2 : List (String × Yaml)),
          merge_config_items (.map t2) rest = .ok r →
          ∃ rm, r = .map rm ∧ dictGet rm k0 = dictGet t2 k0
            ∧ ∀ k, ¬ (k = k0) → MergeKeySpec t2 rest rm k := by
      intro t2 hrec
      obtain ⟨rm, hrm, hall⟩ := ih t2 r hnd.2 hrec
      refine ⟨rm, hrm, ?_, fun k _ => hall k⟩
      have hthis := hall k0
      unfold MergeKeySpec at hthis
      rw [hk0] at hthis
      exact hthis
    -- the per-key conclusion, shared by the three source-value shapes, once
    -- the updated-entry facts are in hand
    have finish :
        ∀ (w : Yaml) (rm : List (String × Yaml)),
          dictGet rm k0 = dictGet (dictSet t k0 w) k0 →
          (∀ k, ¬ (k = k0) → MergeKeySpec (dictSet t k0 w) rest rm k) →
          ∀ k, ¬ (k = k0) → MergeKeySpec t ((k0, v0) :: rest) rm k := by
      intro w rm hself hrest k hk
      have hne : ¬ (k0 = k) := fun he => hk he.symm
      have hthis := hrest k hk
      unfold MergeKeySpec at hthis ⊢
      rw [dictGet_cons_ne hne]
      simp only [dictGet_dictSet_ne t k0 w k hk] at hthis
      exact hthis
    cases v0 with
    | map sv =>
      simp only [merge_config_items] at h
      rcases hmerge : merge_config ((dictGet t k0).getD (.map [])) (.map sv)
        with merged | c | m
      all_goals rw [hmerge] at h
      case exit => rw [PyM.bind_exit] at h; exact PyM.noConfusion h
      case exn => rw [PyM.bind_exn] at h; exact PyM.noConfusion h
      rw [PyM.bind_ok] at h
      obtain ⟨rm, hrm, hself, hrest⟩ := step _ h
      refine ⟨rm, hrm, ?_⟩
      intro k
      by_cases hk : k = k0
      · subst hk
        unfold MergeKeySpec
        rw [dictGet_cons_self]
        exact ⟨merged, hmerge, by rw [hself, dictGet_dictSet_self]⟩
      · exact finish merged rm hself hrest k hk
    | list l =>
      simp only [merge_config_items] at h
      rcases htl : (dictGet t k0).getD (.list []) with _ | b | n | s2 | tl | m2
      all_goals rw [htl] at h
      case null => exact PyM.noConfusion h
      case bool => exact PyM.noConfusion h
      case int => exact PyM.noConfusion h
      case str => exact PyM.noConfusion h
      case map => exact PyM.noConfusion h
      obtain ⟨rm, hrm, hself, hrest⟩ := step _ h
      refine ⟨rm, hrm, ?_⟩
      intro k
      by_cases hk : k = k0
      · subst hk
        unfold MergeKeySpec
        rw [dictGet_cons_self]
        exact ⟨tl, htl, by rw [hself, dictGet_dictSet_self]⟩
      · exact finish (.list (tl ++ l)) rm hself hrest k hk
    | null =>
      simp only [merge_config_items] at h
      obtain ⟨rm, hrm, hself, hrest⟩ := step _ h
      refine ⟨rm, hrm, ?_⟩
      intro k
      by_cases hk : k = k0
      · subst hk
        unfold MergeKeySpec
        rw [dictGet_cons_self, hself, dictGet_dictSet_self]
      · exact finish .null rm hself hrest k hk
    | bool b =>
      simp only [merge_config_items] at h
      obtain ⟨rm, hrm, hself, hrest⟩ := step _ h
      refine ⟨rm, hrm, ?_⟩
      intro k
      by_cases hk : k = k0
      · subst hk
        unfold MergeKeySpec
        rw [dictGet_cons_self, hself, dictGet_dictSet_self]
      · exact finish (.bool b) rm hself hrest k hk
    | int n =>
      simp only [merge_config_items] at h
      obtain ⟨rm, hrm, hself, hrest⟩ := step _ h
      refine ⟨rm, hrm, ?_⟩
      intro k
      by_cases hk : k = k0
      · subst hk
        unfold MergeKeySpec
        rw [dictGet_cons_self, hself, dictGet_dictSet_self]
      · exact finish (.int n) rm hself hrest k hk
    | str s2 =>
      simp only [merge_config_items] at h
      obtain ⟨rm, hrm, hself, hrest⟩ := step _ h
      refine ⟨rm, hrm, ?_⟩
      intro k
      by_cases hk : k = k0
      · subst hk
        unfold MergeKeySpec
        rw [dictGet_cons_self, hself, dictGet_dictSet_self]
      · exact finish (.str s2) rm hself hrest k hk

-- ---------------------------------------------------------------------------
-- Claim C3 — merge semantics (corrected: a mapping source value over a
-- non-mapping target value raises instead of overwriting)
-- ---------------------------------------------------------------------------

/-- Claim C3, counterexample: for target `{a: 1}` and source `{a: {b: 2}}`
the claim predicts the overwrite `{a: {b: 2}}`, but `merge_config` recurses
into the scalar `1` and raises a `TypeError` instead. -/
theorem claim_c3_counterexample :
    merge_config (.map [("a", .int 1)]) (.map [("a", .map [("b", .int 2)])])
      = .exn "TypeError: object does not support item assignment"
    ∧ merge_config (.map [("a", .int 1)]) (.map [("a", .map [("b", .int 2)])])
      ≠ .ok (.map [("a", .map [("b", .int 2)])]) := by
  have h0 : merge_config (.map [("a", .int 1)]) (.map [("a", .map [("b", .int 2)])])
      = PyM.exn "TypeError: object does not support item assignment" := rfl
  refine ⟨h0, ?_⟩
  intro h
  rw [h0] at h
  exact PyM.noConfusion h

/-- Claim C3 (amended): merging a None source is a no-op; for mapping
sources with distinct keys, per key of the source: a mapping value recurses
into the target's existing entry (empty-mapping seed when absent, an error
when it is not a mapping), a list value concatenates onto the target's
existing list (empty seed when absent, an error when it is not a list), any
other value overwrites; other keys are untouched. -/
theorem claim_c3 :
    (∀ tgt, merge_config tgt .null = .ok tgt)
    ∧ (∀ (s t : List (String × Yaml)) (r : Yaml), (s.map Prod.fst).Nodup →
        merge_config (.map t) (.map s) = .ok r →
        ∃ rm, r = .map rm ∧ ∀ k, MergeKeySpec t s rm k) := by
  constructor
  · intro tgt; rfl
  · intro s t r hnd h
    match s with
    | [] =>
      cases h
      exact ⟨t, rfl, fun k => by simp [MergeKeySpec, dictGet]⟩
    | hd :: rest =>
      rw [merge_config] at h
      simp only [pyFalsy, List.isEmpty_cons, Bool.false_eq_true, if_false] at h
      exact merge_config_items_lookup _ t r hnd h

/-- Claim C3, witness: the amended statement applied at target `{}` and
source `{a: 2}`. -/
theorem claim_c3_witness :
    ∃ rm, Yaml.map [("a", Yaml.int 2)] = .map rm
      ∧ ∀ k, MergeKeySpec [] [("a", Yaml.int 2)] rm k :=
  claim_c3.2 [("a", .int 2)] [] (.map [("a", .int 2)]) (by simp) rfl

-- ---------------------------------------------------------------------------
-- Claim C2 — missing-config-file handling (code bug: the condition is
-- inverted relative to the spec and to the source's own log message)
-- ---------------------------------------------------------------------------

/-- Claim C2: the claim says a missing caller-supplied default file
(`ankh.yaml`) is skipped silently while a missing explicitly-named file is
fatal.  The code does the opposite: a missing explicitly-named
`custom.yaml` is ignored (under a debug message that calls it a "default
config file"), while the missing default `ankh.yaml` is a fatal
`sys.exit(1)`. -/
theorem claim_c2_code_behavior :
    gather_config_files envBase ["custom.yaml"] (.map []) = ([], .ok (.map []))
    ∧ gather_config_files envBase ["ankh.yaml"] (.map [])
      = ([.logError "Cannot find config file ankh.yaml"], .exit 1)
    ∧ (gather_config envBase { config_files := ["custom.yaml"] }).2 = .ok (.map [])
    ∧ (gather_config envBase { config_files := ["ankh.yaml"] }).2 = .exit 1 := by
  refine ⟨?_, ?_, ?_, ?_⟩ <;> rfl

theorem merge_example_gather :
    merge_config (.map [("a", .int 1), ("b", .list [.int 1])])
      (.map [("a", .int 2), ("b", .list [.int 2])])
      = .ok (.map [("a", .int 2), ("b", .list [.int 1, .int 2])]) := by
  rfl

-- ---------------------------------------------------------------------------
-- Claim C8 — action-stage argument vector (corrected: `--kubeconfig` comes
-- right after the action, not between the extra flags and `-f -`)
-- ---------------------------------------------------------------------------

/-- Claim C8, counterexample: with a kubeconfig set, the built vector places
`--kubeconfig` immediately after the action, not after the extra flags as the
claim orders it. -/
theorem claim_c8_counterexample :
    kubectl_action_command "apply" (.map [("kube_context", .str "ctx")])
      { kubeconfig := some "kc" } none
      = .ok ["kubectl", "apply", "--kubeconfig", "kc", "--context", "ctx", "-f", "-"]
    ∧ ["kubectl", "apply", "--kubeconfig", "kc", "--context", "ctx", "-f", "-"]
      ≠ ["kubectl", "apply", "--context", "ctx", "--kubeconfig", "kc", "-f", "-"] := by
  exact ⟨rfl, by decide⟩

/-- Claim C8 (amended): the action-stage vector is exactly the tool name, the
action, then in order: the optional `--kubeconfig` flag, the `--context`
flag, the optional `--namespace` flag, the optional `--dry-run` flag, any
caller-supplied extra flags, and finally `-f -`; for the `template` action
stage 2 is instead `cat`, an inert pass-through. -/
theorem claim_c8 :
    (∀ (action : String) (gcKvs : List (String × Yaml)) (args : Args)
        (extra : Option (List String)) (kcY : Yaml),
      dictGet gcKvs "kube_context" = some kcY →
      kubectl_action_command action (.map gcKvs) args extra
        = .ok (["kubectl", action]
          ++ (if args.kubeconfig.getD "" ≠ "" then ["--kubeconfig", args.kubeconfig.getD ""]
              else [])
          ++ ["--context", pyStr kcY]
          ++ (match dictGet gcKvs "namespace" with
              | some nsY => ["--namespace", pyStr nsY]
              | none => [])
          ++ (if args.dry_run then ["--dry-run"] else [])
          ++ extra.getD []
          ++ ["-f", "-"]))
    ∧ (∀ (env : Env) (chart : Yaml) (args : Args) (extra : Option (List String)) (gc : Yaml)
        (ctr : Nat) (t : String × List String × List String) (ctr2 : Nat),
      kubectl_chart_action_commands env "template" chart args extra gc ctr = .ok (t, ctr2) →
      t.2.2 = ["cat"]) := by
  constructor
  · intro action gcKvs args extra kcY h
    unfold kubectl_action_command kubectl_append_kubeconfig kubectl_append_base
      kubectl_append_extra_args kubectl_append_path
    rcases hns : dictGet gcKvs "namespace" with _ | nsY <;>
      rcases extra with _ | e <;>
        by_cases hkc : args.kubeconfig.getD "" = "" <;>
          by_cases hdr : args.dry_run = true <;>
            simp [PyM.bind_eq, PyM.pure_eq, yIndex, yIndexY, pyIn, h, PyM.bind, hns, hkc, hdr,
              List.append_assoc]
  · intro env chart args extra gc ctr t ctr2 h
    unfold kubectl_chart_action_commands at h
    rcases hh : helm_template_command env chart gc ctr with p | c | m
    all_goals rw [hh] at h
    case exit => exact PyM.noConfusion h
    case exn => exact PyM.noConfusion h
    obtain ⟨helm, ctr3⟩ := p
    rw [PyM.bind_eq, PyM.bind_ok] at h
    simp only [if_pos rfl, PyM.bind_eq, PyM.pure_eq, PyM.bind_ok] at h
    rcases hc : yIndex chart "chartref" with cref | c | m
    all_goals rw [hc] at h
    case exit => exact PyM.noConfusion h
    case exn => exact PyM.noConfusion h
    rw [PyM.bind_ok] at h
    cases h
    rfl

/-- Claim C8, witness: the amended order at a concrete config with
kubeconfig, namespace, dry-run and extra flags all present. -/
theorem claim_c8_witness :
    kubectl_action_command "delete"
      (.map [("kube_context", .str "ctx"), ("namespace", .str "ns")])
      { kubeconfig := some "kc", dry_run := true } (some ["--ignore-not-found"])
      = .ok (["kubectl", "delete"]
        ++ ["--kubeconfig", "kc"]
        ++ ["--context", "ctx"]
        ++ ["--namespace", "ns"]
        ++ ["--dry-run"]
        ++ ["--ignore-not-found"]
        ++ ["-f", "-"]) := by
  have h := claim_c8.1 "delete"
    [("kube_context", .str "ctx"), ("namespace", .str "ns")]
    { kubeconfig := some "kc", dry_run := true } (some ["--ignore-not-found"])
    (.str "ctx") rfl
  simpa using h

-- ---------------------------------------------------------------------------
-- Claim C7 — declined confirmation aborts before anything is spawned
-- ---------------------------------------------------------------------------

/-- Claim C7: with auto-confirm disabled, the engine prints the target names
and the action in the confirmation prompt, and any reply other than `y` or
`Y` exits with status 1 with zero pipelines spawned. -/
theorem claim_c7 :
    ∀ (env : Env) (action : String) (targets : List Yaml) (args : Args)
      (extra : Option (List String)) (gc : Yaml) (names : List String),
    args.yes = false →
    confirm_names targets = .ok names →
    env.userInput ≠ "y" → env.userInput ≠ "Y" →
    kubectl_action_targets env action targets args extra gc
      = ([.confirmPrompt action names, .abortDeclined], .exit 1)
    ∧ ∀ n h k, Event.spawned n h k ∉ (kubectl_action_targets env action targets args extra gc).1 := by
  intro env action targets args extra gc names hyes hnames h1 h2
  have heq : kubectl_action_targets env action targets args extra gc
      = ([.confirmPrompt action names, .abortDeclined], .exit 1) := by
    unfold kubectl_action_targets
    rw [hyes, hnames]
    simp [h1, h2]
  refine ⟨heq, ?_⟩
  intro n h k hmem
  rw [heq] at hmem
  simp at hmem

/-- Claim C7, witness: one named target, prompt reply `n`. -/
theorem claim_c7_witness :
    kubectl_action_targets envBase "apply" [.map [("name", .str "a")]] {} none .null
      = ([.confirmPrompt "apply" ["a"], .abortDeclined], .exit 1)
    ∧ ∀ n h k, Event.spawned n h k
        ∉ (kubectl_action_targets envBase "apply" [.map [("name", .str "a")]] {} none .null).1 :=
  claim_c7 envBase "apply" [.map [("name", .str "a")]] {} none .null ["a"]
    rfl rfl (by decide) (by decide)

-- ---------------------------------------------------------------------------
-- Claim C4 — reporting order and fail-fast of the pipeline engine
-- ---------------------------------------------------------------------------

/-- Claim C4: pipelines are reported in spawn order, stage 2 (kubectl) is
waited on first and a non-zero stage-2 exit ends the run with exit status 1;
for two targets whose action stages exit 0 and non-zero respectively, target
1's success (both stages) is reported, then target 2's failure, and no
success is reported for target 2's stage 1.  And when stage 2 succeeds but
stage 1 (template) exits non-zero, the run is also fatal: the stage-1
failure is reported and the run exits 1. -/
theorem claim_c4 :
    (∀ (env : Env) (action : String) (t1 t2 : Yaml) (args : Args)
      (extra : Option (List String)) (gc : Yaml)
      (p1 p2 : String × List String × List String) (c1 c2 : Nat),
    args.yes = true → args.explain = false → action ≠ "template" →
    kubectl_chart_action_commands env action t1 args extra gc 0 = .ok (p1, c1) →
    kubectl_chart_action_commands env action t2 args extra gc c1 = .ok (p2, c2) →
    (env.exec p1.2.1 p1.2.2).krc = 0 →
    (env.exec p1.2.1 p1.2.2).hrc = 0 →
    (env.exec p2.2.1 p2.2.2).krc ≠ 0 →
    p1.1 ≠ p2.1 →
    kubectl_action_targets env action [t1, t2] args extra gc
      = ([.spawned p1.1 p1.2.1 p1.2.2, .spawned p2.1 p2.2.1 p2.2.2,
          .kubectlOK p1.1, .helmOK p1.1,
          .kubectlFailed p2.1 (env.exec p2.2.1 p2.2.2).kerr], .exit 1)
    ∧ Event.helmOK p2.1 ∉ (kubectl_action_targets env action [t1, t2] args extra gc).1)
    ∧ (∀ (env : Env) (action : String) (t : Yaml) (args : Args)
      (extra : Option (List String)) (gc : Yaml)
      (p : String × List String × List String) (c1 : Nat),
    args.yes = true → args.explain = false → action ≠ "template" →
    kubectl_chart_action_commands env action t args extra gc 0 = .ok (p, c1) →
    (env.exec p.2.1 p.2.2).krc = 0 →
    (env.exec p.2.1 p.2.2).hrc ≠ 0 →
    kubectl_action_targets env action [t] args extra gc
      = ([.spawned p.1 p.2.1 p.2.2, .kubectlOK p.1,
          .helmFailed p.1 (env.exec p.2.1 p.2.2).herr], .exit 1)) := by
  constructor
  · intro env action t1 t2 args extra gc p1 p2 c1 c2 hyes hexp haction h1 h2 hk1 hh1 hk2 hne
    obtain ⟨n1, hl1, kl1⟩ := p1
    obtain ⟨n2, hl2, kl2⟩ := p2
    have hs : spawn_pipelines env action args extra gc [t1, t2] 0
        = ([.spawned n1 hl1 kl1, .spawned n2 hl2 kl2],
            .ok [(n1, hl1, kl1), (n2, hl2, kl2)]) := by
      simp only [spawn_pipelines, h1, h2, hexp, Bool.false_eq_true, if_false, PyM.bind]
    have hr : report_pipelines env action [(n1, hl1, kl1), (n2, hl2, kl2)]
        = ([.kubectlOK n1, .helmOK n1, .kubectlFailed n2 (env.exec hl2 kl2).kerr],
            .exit 1) := by
      simp only [report_pipelines]
      rw [if_pos hk1, if_neg haction, if_pos hh1, if_neg hk2]
    have heq : kubectl_action_targets env action [t1, t2] args extra gc
        = ([.spawned n1 hl1 kl1, .spawned n2 hl2 kl2,
            .kubectlOK n1, .helmOK n1,
            .kubectlFailed n2 (env.exec hl2 kl2).kerr], .exit 1) := by
      unfold kubectl_action_targets
      rw [hyes]
      simp only [Bool.not_true, Bool.false_eq_true, if_false]
      rw [hs]
      simp [hr]
    refine ⟨heq, ?_⟩
    intro hmem
    rw [heq] at hmem
    simp at hmem
    exact hne hmem.symm
  · intro env action t args extra gc p c1 hyes hexp haction h1 hk hh
    obtain ⟨n1, hl1, kl1⟩ := p
    have hs : spawn_pipelines env action args extra gc [t] 0
        = ([.spawned n1 hl1 kl1], .ok [(n1, hl1, kl1)]) := by
      simp only [spawn_pipelines, h1, hexp, Bool.false_eq_true, if_false, PyM.bind]
    have hr : report_pipelines env action [(n1, hl1, kl1)]
        = ([.kubectlOK n1, .helmFailed n1 (env.exec hl1 kl1).herr], .exit 1) := by
      simp only [report_pipelines]
      rw [if_pos hk, if_neg haction, if_neg hh]
    unfold kubectl_action_targets
    rw [hyes]
    simp only [Bool.not_true, Bool.false_eq_true, if_false]
    rw [hs]
    simp [hr]

/-- Claim C4, witness: two local charts where the second pipeline's action
stage fails, and a single chart whose action stage succeeds but whose
template stage fails. -/
theorem claim_c4_witness :
    (kubectl_action_targets envC4 "apply" [chartA, chartB] argsYes none gcKC
      = ([.spawned "dirA" ["helm", "template", "--kube-context", "ctx", "dirA"]
            ["kubectl", "apply", "--context", "ctx", "-f", "-"],
          .spawned "dirB" ["helm", "template", "--kube-context", "ctx", "dirB"]
            ["kubectl", "apply", "--context", "ctx", "-f", "-"],
          .kubectlOK "dirA", .helmOK "dirA", .kubectlFailed "dirB" "boom"], .exit 1)
    ∧ Event.helmOK "dirB"
        ∉ (kubectl_action_targets envC4 "apply" [chartA, chartB] argsYes none gcKC).1)
    ∧ kubectl_action_targets envC4b "apply" [chartB] argsYes none gcKC
      = ([.spawned "dirB" ["helm", "template", "--kube-context", "ctx", "dirB"]
            ["kubectl", "apply", "--context", "ctx", "-f", "-"],
          .kubectlOK "dirB", .helmFailed "dirB" "tfail"], .exit 1) :=
  ⟨claim_c4.1 envC4 "apply" chartA chartB argsYes none gcKC
    ("dirA", ["helm", "template", "--kube-context", "ctx", "dirA"],
      ["kubectl", "apply", "--context", "ctx", "-f", "-"])
    ("dirB", ["helm", "template", "--kube-context", "ctx", "dirB"],
      ["kubectl", "apply", "--context", "ctx", "-f", "-"])
    0 0 rfl rfl (by decide) (by decide) (by decide) (by decide) (by decide) (by decide)
    (by decide),
   claim_c4.2 envC4b "apply" chartB argsYes none gcKC
    ("dirB", ["helm", "template", "--kube-context", "ctx", "dirB"],
      ["kubectl", "apply", "--context", "ctx", "-f", "-"])
    0 rfl rfl (by decide) (by decide) (by decide) (by decide)⟩

-- ---------------------------------------------------------------------------
-- Claim C5 — failed fetch aborts resolution but the command still returns 0
-- ---------------------------------------------------------------------------

/-- Claim C5: when the fetch of a declared name+version chart fails,
`kubectl_action` stops resolution and returns -1 with no pipeline spawned and
no target list used — but `apply_command` discards that return value and
returns 0, so the claimed process exit status 1 never happens. -/
theorem claim_c5_code_behavior :
    kubectl_action envFetchFail "apply" (.map [("charts", .list [chartNV])]) argsYes none gcC5
      = ([.logError "Failed to fetch chart a with version 1"], .ok (some (-1)))
    ∧ (∀ n h k, Event.spawned n h k
        ∉ (kubectl_action envFetchFail "apply" (.map [("charts", .list [chartNV])])
            argsYes none gcC5).1)
    ∧ apply_command envFetchFail gcC5 argsYes
      = ([.logError "Failed to fetch chart a with version 1"], .ok 0) := by
  refine ⟨rfl, ?_, rfl⟩
  intro n h k hmem
  rw [show (kubectl_action envFetchFail "apply" (.map [("charts", .list [chartNV])])
      argsYes none gcC5).1 = [.logError "Failed to fetch chart a with version 1"] from rfl] at hmem
  simp at hmem

-- ---------------------------------------------------------------------------
-- Claim C9 — the charts section is indexed twice
-- ---------------------------------------------------------------------------

/-- Claim C9: `apply_command`/`template_command` pass `global_config['charts']`
as the `config` parameter of `kubectl_action`, which indexes it with the
string key `charts` again; for a merged configuration that passes the
command header's own lookups (string `kube_context` and `environment`, as the
run's required-key validation guarantees), when the charts section is a list
and the CLI chart constraint is absent, the chart-iteration step indexes a
list with the string key `charts` — a `TypeError` instead of a target
list. -/
theorem claim_c9 :
    ∀ (env : Env) (gcKvs : List (String × Yaml)) (args : Args) (l : List Yaml)
      (kc e : String),
    dictGet gcKvs "charts" = some (.list l) →
    args.chart = none →
    dictGet gcKvs "kube_context" = some (.str kc) →
    dictGet gcKvs "environment" = some (.str e) →
    dictGet gcKvs "namespace" = none →
    (kubectl_action env "apply" (.list l) args none (.map gcKvs)).2
      = .exn "TypeError: list indices must be integers"
    ∧ (dictGet gcKvs "bootstrap" = none →
        (apply_command env (.map gcKvs) args).2
          = .exn "TypeError: list indices must be integers")
    ∧ (template_command env (.map gcKvs) args).2
      = .exn "TypeError: list indices must be integers" := by
  intro env gcKvs args l kc e hcharts hchart hkc henv hns
  have hka : kubectl_action env "apply" (.list l) args none (.map gcKvs)
      = ([], .exn "TypeError: list indices must be integers") := by
    unfold kubectl_action
    rw [hchart]
    simp [yIndex, yIndexY, PyM.bind]
  have hkt : kubectl_action env "template" (.list l) args none (.map gcKvs)
      = ([], .exn "TypeError: list indices must be integers") := by
    unfold kubectl_action
    rw [hchart]
    simp [yIndex, yIndexY, PyM.bind]
  have hch : ∀ a : String, command_header a (.map gcKvs)
      = .ok ("context \x22" ++ kc ++ "\x22 using environment \x22" ++ e ++ "\x22" ++ "") := by
    intro a
    unfold command_header
    simp [pyIn, yIndex, yIndexY, hkc, henv, hns, PyM.bind_eq, PyM.pure_eq, PyM.bind]
  refine ⟨by rw [hka], ?_, ?_⟩
  · intro hboot
    unfold apply_command
    simp only [pyIn, hboot, Option.isSome_none, Bool.false_eq_true, if_false,
      PyM.bind, hcharts, Option.isSome_some, yIndex, yIndexY, hch, PyM.bind_ok]
    simp [hka, PyM.bind]
  · unfold template_command
    simp only [pyIn, hcharts, Option.isSome_some, yIndex, yIndexY, hch, PyM.bind_ok,
      PyM.bind]
    simp [hkt, PyM.bind]

/-- Claim C9, witness: an empty declared chart list in a config carrying
string `kube_context` and `environment`, so the command header succeeds and
the double indexing itself is what raises. -/
theorem claim_c9_witness :
    (kubectl_action envBase "apply" (.list []) {} none (.map gcListCharts)).2
      = .exn "TypeError: list indices must be integers"
    ∧ ((apply_command envBase (.map gcListCharts) {}).2
        = .exn "TypeError: list indices must be integers")
    ∧ (template_command envBase (.map gcListCharts) {}).2
      = .exn "TypeError: list indices must be integers" := by
  have h := claim_c9 envBase gcListCharts {} [] "ctx" "prod" rfl rfl rfl rfl rfl
  exact ⟨h.1, h.2.1 rfl, h.2.2⟩

-- ---------------------------------------------------------------------------
-- Claim C10 — unguarded ingress-host substitution
-- ---------------------------------------------------------------------------

/-- Claim C10: every apply/template run reaches the ingress-host substitution
after the four required-key checks, and it indexes
`global_config['context']['ingress']` without a guard, so a configuration
without that submap raises (the run ends in the embedding's error branch)
even when all four required keys are present; when the submap exists, string
entries containing the placeholder are rewritten and non-string entries are
left unchanged. -/
theorem claim_c10 :
    (∀ (env : Env) (args : Args) (gc : Yaml) (evs : List Event) (msg : String),
      gather_config env args = (evs, .ok gc) →
      pyIn (.str "dependencies") gc = .ok false →
      required_key_ok gc "kube_context" = .ok true →
      required_key_ok gc "environment" = .ok true →
      required_key_ok gc "profile" = .ok true →
      args.release = none → args.helm_registry_url = none →
      required_key_ok gc "helm_registry_url" = .ok true →
      template_ingress_hosts env.hostname gc = .exn msg →
      (run env args).2 = .exn msg)
    ∧ (∀ (hostname : String) (gcKvs ctxKvs items : List (String × Yaml)),
      dictGet gcKvs "context" = some (.map ctxKvs) →
      dictGet ctxKvs "ingress" = some (.map items) →
      ∃ items2,
        template_ingress_hosts hostname (.map gcKvs)
          = .ok (.map (dictSet gcKvs "context"
              (.map (dictSet ctxKvs "ingress" (.map items2)))))
        ∧ (∀ k v, (k, v) ∈ items → (∀ s, v ≠ Yaml.str s) → (k, v) ∈ items2)
        ∧ (∀ k s, (k, Yaml.str s) ∈ items →
            (strContains s hostnameToken = true →
              (k, Yaml.str (strReplace s hostnameToken hostname)) ∈ items2)
            ∧ (strContains s hostnameToken = false → (k, Yaml.str s) ∈ items2))) := by
  constructor
  · intro env args gc evs msg hg hdeps hkc henv hprof hrel hhru hreg hing
    unfold run
    rw [hg]
    dsimp only
    rw [hdeps]
    dsimp only
    simp only [PyM.bind_eq, PyM.bind_ok, PyM.pure_eq, hkc, henv, hprof, hrel, hhru, hreg,
      Bool.not_true, Bool.false_eq_true, if_false, Option.getD, PyM.bind]
    simp [hing, PyM.bind]
  · intro hostname gcKvs ctxKvs items hctx hing
    unfold template_ingress_hosts
    simp only [PyM.bind_eq, yIndex, yIndexY, hctx, hing, PyM.bind_ok, ySet, PyM.pure_eq,
      PyM.bind]
    refine ⟨_, rfl, ?_, ?_⟩
    · intro k v hm hns
      have h2 := List.mem_map_of_mem
        (f := fun kv : String × Yaml =>
          match kv.2 with
          | .str host =>
            if strContains host hostnameToken then
              (kv.1, Yaml.str (strReplace host hostnameToken hostname))
            else kv
          | _ => kv) hm
      cases v with
      | str s => exact absurd rfl (hns s)
      | null => exact h2
      | bool b => exact h2
      | int n => exact h2
      | list xs => exact h2
      | map kvs => exact h2
    · intro k s hm
      have h2 := List.mem_map_of_mem
        (f := fun kv : String × Yaml =>
          match kv.2 with
          | .str host =>
            if strContains host hostnameToken then
              (kv.1, Yaml.str (strReplace host hostnameToken hostname))
            else kv
          | _ => kv) hm
      constructor
      · intro hc
        simpa [hc] using h2
      · intro hc
        simpa [hc] using h2

/-- Claim C10, witness: a gathered config with all four required keys but no
`context` mapping makes the run raise `KeyError: context`; with the submap
present, the placeholder-bearing string entry is rewritten and the integer
entry survives unchanged. -/
theorem claim_c10_witness :
    (run envC10 {}).2 = .exn "KeyError: context"
    ∧ ∃ items2,
        template_ingress_hosts "h1" (.map gcIngress)
          = .ok (.map (dictSet gcIngress "context"
              (.map (dictSet ctxIngress "ingress" (.map items2)))))
        ∧ (∀ k v, (k, v) ∈ ingressItems → (∀ s, v ≠ Yaml.str s) → (k, v) ∈ items2)
        ∧ (∀ k s, (k, Yaml.str s) ∈ ingressItems →
            (strContains s hostnameToken = true →
              (k, Yaml.str (strReplace s hostnameToken "h1")) ∈ items2)
            ∧ (strContains s hostnameToken = false → (k, Yaml.str s) ∈ items2)) :=
  ⟨claim_c10.1 envC10 {} gcFourKeys [] "KeyError: context" rfl rfl rfl rfl rfl rfl rfl rfl rfl,
   claim_c10.2 "h1" gcIngress ctxIngress ingressItems rfl rfl⟩

-- ---------------------------------------------------------------------------
-- Prefix decomposition of the template-command builders: every
-- `helm_append_*` function only ever appends to the vector it is given, so
-- its result is the input vector followed by a suffix that does not depend
-- on that vector.
-- ---------------------------------------------------------------------------

theorem helm_append_base_suffix (helm : List String) (gc : Yaml) :
    helm_append_base helm gc = (helm_append_base [] gc).bind (fun s => .ok (helm ++ s)) := by
  unfold helm_append_base
  simp only [PyM.bind_eq, PyM.pure_eq, PyM.bind]
  repeat' (split <;> try simp_all [PyM.bind, List.append_assoc])

theorem helm_append_context_suffix (helm : List String) (chart gc : Yaml) :
    helm_append_context helm chart gc
      = (helm_append_context [] chart gc).bind (fun s => .ok (helm ++ s)) := by
  unfold helm_append_context
  simp only [PyM.bind_eq, PyM.pure_eq, PyM.bind]
  repeat' (split <;> try simp_all [PyM.bind, List.append_assoc])

theorem helm_append_ingress_suffix (helm : List String) (chart gc : Yaml) :
    helm_append_ingress helm chart gc
      = (helm_append_ingress [] chart gc).bind (fun s => .ok (helm ++ s)) := by
  unfold helm_append_ingress
  simp only [PyM.bind_eq, PyM.pure_eq, PyM.bind]
  repeat' (split <;> try simp_all [PyM.bind, List.append_assoc])

theorem helm_append_secrets_suffix (helm : List String) (chart gc : Yaml) :
    helm_append_secrets helm chart gc
      = (helm_append_secrets [] chart gc).bind (fun s => .ok (helm ++ s)) := by
  unfold helm_append_secrets
  simp only [PyM.bind_eq, PyM.pure_eq, PyM.bind, helm_append_kv]
  repeat' (split <;> try simp_all [PyM.bind, List.append_assoc])

theorem helm_append_release_suffix (helm : List String) (chart gc : Yaml) :
    helm_append_release helm chart gc
      = (helm_append_release [] chart gc).bind (fun s => .ok (helm ++ s)) := by
  unfold helm_append_release
  simp only [PyM.bind_eq, PyM.pure_eq, PyM.bind]
  repeat' (split <;> try simp_all [PyM.bind, List.append_assoc])

theorem helm_append_chartref_suffix (helm : List String) (chart : Yaml) :
    helm_append_chartref helm chart
      = (helm_append_chartref [] chart).bind (fun s => .ok (helm ++ s)) := by
  unfold helm_append_chartref
  simp only [PyM.bind_eq, PyM.pure_eq, PyM.bind]
  repeat' (split <;> try simp_all [PyM.bind, List.append_assoc])

theorem helm_append_values_tar_suffix (env : Env) (helm : List String) (chart gc : Yaml)
    (ctr : Nat) :
    helm_append_values_tar env helm chart gc ctr
      = (helm_append_values_tar env [] chart gc ctr).bind (fun p => .ok (helm ++ p.1, p.2)) := by
  unfold helm_append_values_tar
  simp only [PyM.bind_eq, PyM.pure_eq, PyM.bind]
  repeat' (split <;> try simp_all [PyM.bind, List.append_assoc])

theorem helm_append_values_tar_split (env : Env) (a b : List String) (chart gc : Yaml)
    (ctr : Nat) :
    helm_append_values_tar env (a ++ b) chart gc ctr
      = (helm_append_values_tar env b chart gc ctr).bind (fun p => .ok (a ++ p.1, p.2)) := by
  rw [helm_append_values_tar_suffix env (a ++ b), helm_append_values_tar_suffix env b,
    PyM.bind_assoc]
  rcases helm_append_values_tar env [] chart gc ctr with p | c | m <;>
    simp [PyM.bind, List.append_assoc]

theorem helm_append_profile_tar_suffix (env : Env) (helm : List String) (chart gc : Yaml)
    (ctr : Nat) :
    helm_append_profile_tar env helm chart gc ctr
      = (helm_append_profile_tar env [] chart gc ctr).bind (fun p => .ok (helm ++ p.1, p.2)) := by
  unfold helm_append_profile_tar
  simp only [PyM.bind_eq, PyM.pure_eq, PyM.bind]
  repeat' (split <;> try simp_all [PyM.bind, List.append_assoc])

theorem helm_append_profile_tar_split (env : Env) (a b : List String) (chart gc : Yaml)
    (ctr : Nat) :
    helm_append_profile_tar env (a ++ b) chart gc ctr
      = (helm_append_profile_tar env b chart gc ctr).bind (fun p => .ok (a ++ p.1, p.2)) := by
  rw [helm_append_profile_tar_suffix env (a ++ b), helm_append_profile_tar_suffix env b,
    PyM.bind_assoc]
  rcases helm_append_profile_tar env [] chart gc ctr with p | c | m <;>
    simp [PyM.bind, List.append_assoc]

theorem helm_append_values_suffix (env : Env) (helm : List String) (chart gc : Yaml)
    (ctr : Nat) :
    helm_append_values env helm chart gc ctr
      = (helm_append_values env [] chart gc ctr).bind (fun p => .ok (helm ++ p.1, p.2)) := by
  unfold helm_append_values
  simp only [PyM.bind_eq, PyM.pure_eq, PyM.bind, helm_append_kv]
  rcases hdv : yGetD chart "default_values" (.map []) with dv | c | m <;>
    simp only [PyM.bind] <;> try rfl
  rcases hn1 : yItemsLen dv with n1 | c | m <;> simp only [PyM.bind] <;> try rfl
  rcases hv : yGetD chart "values" (.map []) with vs | c | m <;>
    simp only [PyM.bind] <;> try rfl
  rcases hn2 : yItemsLen vs with n2 | c | m <;> simp only [PyM.bind] <;> try rfl
  rw [show (if n1 > 0 then helm ++ (collapse dv []).flatMap (fun item => ["--set", item])
        else helm)
      = helm ++ (if n1 > 0 then (collapse dv []).flatMap (fun item => ["--set", item]) else [])
      from by split <;> simp,
    show (if n1 > 0 then [] ++ (collapse dv []).flatMap (fun item => ["--set", item])
        else ([] : List String))
      = (if n1 > 0 then (collapse dv []).flatMap (fun item => ["--set", item]) else [])
      from by split <;> simp]
  generalize (if n1 > 0 then (collapse dv []).flatMap (fun item => ["--set", item])
      else ([] : List String)) = X
  by_cases h2 : n2 > 0 <;> simp only [h2, if_true, if_false]
  · rcases he : yIndex gc "environment" with e | c | m <;> simp only [PyM.bind] <;> try rfl
    rcases hmem : pyIn e vs with b | c | m <;> simp only [PyM.bind] <;> try rfl
    rcases b <;> simp only [Bool.false_eq_true, if_true, if_false, PyM.bind]
    · rw [helm_append_values_tar_split env helm X]
      rcases helm_append_values_tar env X chart gc ctr with p | c | m <;> simp [PyM.bind]
    · rw [List.append_assoc, helm_append_values_tar_split env helm (X ++ ["-f", env.tmpName ctr])]
      rcases helm_append_values_tar env (X ++ ["-f", env.tmpName ctr]) chart gc (ctr + 1)
        with p | c | m <;> simp [PyM.bind]
  · rw [helm_append_values_tar_split env helm X]
    rcases helm_append_values_tar env X chart gc ctr with p | c | m <;> simp [PyM.bind]

theorem helm_append_profile_suffix (env : Env) (helm : List String) (chart gc : Yaml)
    (ctr : Nat) :
    helm_append_profile env helm chart gc ctr
      = (helm_append_profile env [] chart gc ctr).bind (fun p => .ok (helm ++ p.1, p.2)) := by
  unfold helm_append_profile
  simp only [PyM.bind_eq, PyM.pure_eq, PyM.bind]
  rcases hrp : yGetD chart "resource_profiles" (.map []) with rp | c | m <;>
    simp only [PyM.bind] <;> try rfl
  rcases hn : yItemsLen rp with n | c | m <;> simp only [PyM.bind] <;> try rfl
  by_cases h2 : n > 0 <;> simp only [h2, if_true, if_false]
  · rcases hp : yIndex gc "profile" with p | c | m <;> simp only [PyM.bind] <;> try rfl
    rcases hmem : pyIn p rp with b | c | m <;> simp only [PyM.bind] <;> try rfl
    rcases b <;> simp only [Bool.false_eq_true, if_true, if_false, PyM.bind]
    · rw [show helm = helm ++ ([] : List String) from (List.append_nil helm).symm,
        helm_append_profile_tar_split env helm []]
      rcases helm_append_profile_tar env [] chart gc ctr with q | c | m <;> simp [PyM.bind]
    · rw [show (helm ++ ["-f", env.tmpName ctr])
          = helm ++ ([] ++ ["-f", env.tmpName ctr]) from by simp,
        helm_append_profile_tar_split env helm ([] ++ ["-f", env.tmpName ctr])]
      rcases helm_append_profile_tar env ([] ++ ["-f", env.tmpName ctr]) chart gc (ctr + 1)
        with q | c | m <;> simp [PyM.bind]
  · rw [show helm = helm ++ ([] : List String) from (List.append_nil helm).symm,
      helm_append_profile_tar_split env helm []]
    rcases helm_append_profile_tar env [] chart gc ctr with q | c | m <;> simp [PyM.bind]

theorem helm_append_ingress_shape (chart gc : Yaml) (ing : List String) :
    helm_append_ingress [] chart gc = .ok ing →
    ing = [] ∨ ∃ nameY host, yIndex chart "name" = .ok nameY
      ∧ get_ingress_host_by_chart_name gc (pyStr nameY) = .ok (some host)
      ∧ pyTruthy host = true := by
  intro h
  unfold helm_append_ingress at h
  rcases hn : yIndex chart "name" with nameY | c | m <;> rw [hn] at h <;>
    simp only [PyM.bind_eq, PyM.bind] at h
  case exit => exact PyM.noConfusion h
  case exn => exact PyM.noConfusion h
  rcases hi : get_ingress_host_by_chart_name gc (pyStr nameY) with o | c | m <;>
    rw [hi] at h <;> simp only [PyM.bind] at h
  case exit => exact PyM.noConfusion h
  case exn => exact PyM.noConfusion h
  rcases o with _ | host
  · simp only [PyM.pure_eq] at h
    cases h
    exact .inl rfl
  · by_cases ht : pyTruthy host = true
    · exact .inr ⟨nameY, host, rfl, hi, ht⟩
    · simp only [if_neg ht, PyM.pure_eq] at h
      cases h
      exact .inl rfl

theorem helm_append_chartref_single (chart : Yaml) (cr : List String) :
    helm_append_chartref [] chart = .ok cr → ∃ s, cr = [s] := by
  intro h
  unfold helm_append_chartref at h
  rcases hc : yIndex chart "chartref" with y | c | m <;> rw [hc] at h <;>
    simp only [PyM.bind_eq, PyM.bind] at h
  case exit => exact PyM.noConfusion h
  case exn => exact PyM.noConfusion h
  cases h
  exact ⟨pyStr y, rfl⟩

-- ---------------------------------------------------------------------------
-- Claim C6 — fixed order of the template-stage argument vector
-- ---------------------------------------------------------------------------

/-- Claim C6: a successfully built template-stage vector decomposes, in
order, into `helm template`, the cluster-context/namespace segment, the
global-context `--set` segment, the ingress segment, the secrets segment,
the values segment, the resource-profile segment, the release segment, and
the chart reference as the final positional argument; the ingress segment is
non-empty only when a (truthy) ingress host is registered for the chart's
name. -/
theorem claim_c6 :
    ∀ (env : Env) (chart gc : Yaml) (ctr : Nat) (argv : List String) (ctr2 : Nat),
    helm_template_command env chart gc ctr = .ok (argv, ctr2) →
    ∃ (base ctx ing sec vals prof rel : List String) (cref : String) (c1 : Nat),
      helm_append_base [] gc = .ok base
      ∧ helm_append_context [] chart gc = .ok ctx
      ∧ helm_append_ingress [] chart gc = .ok ing
      ∧ helm_append_secrets [] chart gc = .ok sec
      ∧ helm_append_values env [] chart gc ctr = .ok (vals, c1)
      ∧ helm_append_profile env [] chart gc c1 = .ok (prof, ctr2)
      ∧ helm_append_release [] chart gc = .ok rel
      ∧ helm_append_chartref [] chart = .ok [cref]
      ∧ argv = ["helm", "template"] ++ base ++ ctx ++ ing ++ sec ++ vals ++ prof ++ rel ++ [cref]
      ∧ (ing ≠ [] → ∃ nameY host, yIndex chart "name" = .ok nameY
          ∧ get_ingress_host_by_chart_name gc (pyStr nameY) = .ok (some host)
          ∧ pyTruthy host = true) := by
  intro env chart gc ctr argv ctr2 h
  unfold helm_template_command at h
  simp only [PyM.bind_eq] at h
  rw [helm_append_base_suffix] at h
  rcases hbase : helm_append_base [] gc with base | c | m <;> rw [hbase] at h <;>
    simp only [PyM.bind_eq, PyM.bind] at h
  case exit => exact PyM.noConfusion h
  case exn => exact PyM.noConfusion h
  rw [helm_append_context_suffix] at h
  rcases hctx : helm_append_context [] chart gc with ctx | c | m <;> rw [hctx] at h <;>
    simp only [PyM.bind] at h
  case exit => exact PyM.noConfusion h
  case exn => exact PyM.noConfusion h
  rw [helm_append_ingress_suffix] at h
  rcases hing : helm_append_ingress [] chart gc with ing | c | m <;> rw [hing] at h <;>
    simp only [PyM.bind] at h
  case exit => exact PyM.noConfusion h
  case exn => exact PyM.noConfusion h
  rw [helm_append_secrets_suffix] at h
  rcases hsec : helm_append_secrets [] chart gc with sec | c | m <;> rw [hsec] at h <;>
    simp only [PyM.bind] at h
  case exit => exact PyM.noConfusion h
  case exn => exact PyM.noConfusion h
  rw [helm_append_values_suffix] at h
  rcases hvals : helm_append_values env [] chart gc ctr with p | c | m <;> rw [hvals] at h <;>
    simp only [PyM.bind] at h
  case exit => exact PyM.noConfusion h
  case exn => exact PyM.noConfusion h
  obtain ⟨vals, c1⟩ := p
  simp only [PyM.bind] at h
  rw [helm_append_profile_suffix] at h
  rcases hprof : helm_append_profile env [] chart gc c1 with q | c | m <;> rw [hprof] at h <;>
    simp only [PyM.bind] at h
  case exit => exact PyM.noConfusion h
  case exn => exact PyM.noConfusion h
  obtain ⟨prof, c2⟩ := q
  simp only [PyM.bind] at h
  rw [helm_append_release_suffix] at h
  rcases hrel : helm_append_release [] chart gc with rel | c | m <;> rw [hrel] at h <;>
    simp only [PyM.bind] at h
  case exit => exact PyM.noConfusion h
  case exn => exact PyM.noConfusion h
  rw [helm_append_chartref_suffix] at h
  rcases hcref : helm_append_chartref [] chart with cr | c | m <;> rw [hcref] at h <;>
    simp only [PyM.bind] at h
  case exit => exact PyM.noConfusion h
  case exn => exact PyM.noConfusion h
  obtain ⟨s, rfl⟩ := helm_append_chartref_single chart cr hcref
  obtain ⟨ha, hc2⟩ : argv
        = ["helm", "template"] ++ base ++ ctx ++ ing ++ sec ++ vals ++ prof ++ rel ++ [s]
      ∧ ctr2 = c2 := by
    cases h
    constructor
    · simp [List.append_assoc]
    · rfl
  subst hc2
  refine ⟨base, ctx, ing, sec, vals, prof, rel, s, c1,
    rfl, rfl, rfl, rfl, rfl, hprof, rfl, rfl, ha, ?_⟩
  intro hne
  rcases helm_append_ingress_shape chart gc ing hing with he | hr
  · exact absurd he hne
  · exact hr

/-- Claim C6, witness: a chart with a registered ingress host; the built
vector decomposes into the fixed segment order with the ingress `--set` flag
between the global-context segment and the secrets/values/profile segments. -/
theorem claim_c6_witness :
    ∃ (base ctx ing sec vals prof rel : List String) (cref : String) (c1 : Nat),
      helm_append_base [] gcGlobalIng = .ok base
      ∧ helm_append_context [] chartIng gcGlobalIng = .ok ctx
      ∧ helm_append_ingress [] chartIng gcGlobalIng = .ok ing
      ∧ helm_append_secrets [] chartIng gcGlobalIng = .ok sec
      ∧ helm_append_values envBase [] chartIng gcGlobalIng 0 = .ok (vals, c1)
      ∧ helm_append_profile envBase [] chartIng gcGlobalIng c1 = .ok (prof, 0)
      ∧ helm_append_release [] chartIng gcGlobalIng = .ok rel
      ∧ helm_append_chartref [] chartIng = .ok [cref]
      ∧ ["helm", "template", "--kube-context", "ctx",
          "--set", "global.ingress.web=web.example.com",
          "--set", "ingress.host=web.example.com", "charts/web"]
        = ["helm", "template"] ++ base ++ ctx ++ ing ++ sec ++ vals ++ prof ++ rel ++ [cref]
      ∧ (ing ≠ [] → ∃ nameY host, yIndex chartIng "name" = .ok nameY
          ∧ get_ingress_host_by_chart_name gcGlobalIng (pyStr nameY) = .ok (some host)
          ∧ pyTruthy host = true) :=
  claim_c6 envBase chartIng gcGlobalIng 0
    ["helm", "template", "--kube-context", "ctx",
      "--set", "global.ingress.web=web.example.com",
      "--set", "ingress.host=web.example.com", "charts/web"] 0 (by decide)

-- ---------------------------------------------------------------------------
-- Claim C1 — value-chain reference resolution (corrected: the code never
-- consults conventional `{axis-root}/{selector}/{chart-name}.yaml` paths)
-- ---------------------------------------------------------------------------

/-- Claim C1, counterexample: chart `X`, environment `prod`, and an existing
`values/prod/X.yaml` — the claim selects that path, but the built vector
carries no `-f` flag at all: the code never looks at conventional paths. -/
theorem claim_c1_counterexample :
    envC1.pathExists "values/prod/X.yaml" = true
    ∧ helm_template_command envC1 chartX gcProd 0
      = .ok (["helm", "template", "--kube-context", "ctx", "charts/X"], 0)
    ∧ "-f" ∉ ["helm", "template", "--kube-context", "ctx", "charts/X"]
    ∧ "values/prod/X.yaml" ∉ ["helm", "template", "--kube-context", "ctx", "charts/X"] := by
  refine ⟨rfl, by decide, by decide, by decide⟩

/-- Claim C1 (amended): file sources come from the chart's inline
configuration (and, for `.tgz` chartrefs, from archive-embedded files), not
from conventional per-selector paths: for a non-archive chartref, the values
axis attaches the `--set` pairs of `default_values` plus exactly one
temp-file `-f` when the inline values map contains the environment key and
none otherwise, and the resource-profile axis attaches exactly one temp-file
`-f` when the inline resource_profiles map contains the profile key and none
otherwise — regardless of which files exist on disk. -/
theorem claim_c1 :
    (∀ (env : Env) (helm : List String) (chart gc : Yaml) (ctr : Nat)
        (dvm vm : List (String × Yaml)) (cref e : String),
      yGetD chart "default_values" (.map []) = .ok (.map dvm) →
      yGetD chart "values" (.map []) = .ok (.map vm) →
      yIndex gc "environment" = .ok (.str e) →
      yIndex chart "chartref" = .ok (.str cref) →
      strEndsWith cref ".tgz" = false →
      (dictGet vm e = none →
        helm_append_values env helm chart gc ctr
          = .ok (helm ++ (if dvm.length > 0 then
              (collapse (.map dvm) []).flatMap (fun item => ["--set", item]) else []), ctr))
      ∧ (∀ v, dictGet vm e = some v →
        helm_append_values env helm chart gc ctr
          = .ok (helm ++ (if dvm.length > 0 then
              (collapse (.map dvm) []).flatMap (fun item => ["--set", item]) else [])
              ++ ["-f", env.tmpName ctr], ctr + 1)))
    ∧ (∀ (env : Env) (helm : List String) (chart gc : Yaml) (ctr : Nat)
        (rpm : List (String × Yaml)) (cref p : String),
      yGetD chart "resource_profiles" (.map []) = .ok (.map rpm) →
      yIndex gc "profile" = .ok (.str p) →
      yIndex chart "chartref" = .ok (.str cref) →
      strEndsWith cref ".tgz" = false →
      (dictGet rpm p = none →
        helm_append_profile env helm chart gc ctr = .ok (helm, ctr))
      ∧ (∀ v, dictGet rpm p = some v →
        helm_append_profile env helm chart gc ctr
          = .ok (helm ++ ["-f", env.tmpName ctr], ctr + 1))) := by
  constructor
  · intro env helm chart gc ctr dvm vm cref e hdv hvm he hcref hends
    constructor
    · intro hnone
      unfold helm_append_values helm_append_values_tar
      simp only [hdv, hvm, he, hcref, PyM.bind_eq, PyM.bind, yItemsLen, helm_append_kv,
        PyM.pure_eq, pyIn, hnone, Option.isSome_none, Bool.false_eq_true, if_false,
        hends, Bool.not_false, if_true]
      by_cases hd : dvm.length > 0 <;>
        by_cases hv2 : vm.length > 0 <;>
          simp [hd, hv2, PyM.bind]
    · intro v hsome
      have hvlen : vm.length > 0 := by
        cases vm with
        | nil => rw [show dictGet [] e = none from rfl] at hsome; exact Option.noConfusion hsome
        | cons hd2 tl => simp
      unfold helm_append_values helm_append_values_tar
      simp only [hdv, hvm, he, hcref, PyM.bind_eq, PyM.bind, yItemsLen, helm_append_kv,
        PyM.pure_eq, pyIn, hsome, Option.isSome_some, if_true, hvlen,
        hends, Bool.not_false]
      by_cases hd : dvm.length > 0 <;> simp [hd, hvlen, PyM.bind]
  · intro env helm chart gc ctr rpm cref p hrp hp hcref hends
    constructor
    · intro hnone
      unfold helm_append_profile helm_append_profile_tar
      simp only [hrp, hp, hcref, PyM.bind_eq, PyM.bind, yItemsLen,
        PyM.pure_eq, pyIn, hnone, Option.isSome_none, Bool.false_eq_true, if_false,
        hends, Bool.not_false, if_true]
      by_cases hn : rpm.length > 0 <;> simp [hn, PyM.bind]
    · intro v hsome
      have hlen : rpm.length > 0 := by
        cases rpm with
        | nil => rw [show dictGet [] p = none from rfl] at hsome; exact Option.noConfusion hsome
        | cons hd2 tl => simp
      unfold helm_append_profile helm_append_profile_tar
      simp only [hrp, hp, hcref, PyM.bind_eq, PyM.bind, yItemsLen,
        PyM.pure_eq, pyIn, hsome, Option.isSome_some, if_true, hlen,
        hends, Bool.not_false]

/-- Claim C1, witness: the amended statement at chart `X` (no inline values:
no `-f`, despite `values/prod/X.yaml` existing in `envC1`) and at a chart
with inline `default_values` and a `prod` values entry (one temp `-f`). -/
theorem claim_c1_witness :
    helm_append_values envC1 ["x"] chartX gcProd 0 = .ok (["x"] ++ [], 0)
    ∧ helm_append_values envBase [] chartV gcProd 0
      = .ok ([] ++ ["--set", "a=1"] ++ ["-f", "/tmp/t0"], 1)
    ∧ helm_append_profile envC1 ["x"] chartX gcProd 0 = .ok (["x"], 0) := by
  refine ⟨?_, ?_, ?_⟩
  · have h := ((claim_c1.1 envC1 ["x"] chartX gcProd 0 [] [] "charts/X" "prod"
      rfl rfl rfl rfl (by decide)).1 rfl)
    simpa using h
  · have h := ((claim_c1.1 envBase [] chartV gcProd 0 [("a", .int 1)]
      [("prod", .map [("b", .int 2)])] "charts/X" "prod"
      rfl rfl rfl rfl (by decide)).2 (.map [("b", .int 2)]) rfl)
    simpa using h
  · have h := ((claim_c1.2 envC1 ["x"] chartX gcProd 0 [] "charts/X" "production"
      rfl rfl rfl (by decide)).1 rfl)
    simpa using h
